import Mathlib

/-!
Verification of the Calico BPF proxy syncer (felix/bpf/proxy/syncer.go).

The Go source is shallowly embedded: kernel maps and the syncer's in-memory
maps become association lists, machine integers become `Nat` (with explicit
sentinel constants where the code uses reserved values), and the stateful
functions become explicit state-passing functions.  Parts of the repository
that the syncer calls but that are outside the provided sources (the
`cachingmap` and `nat` packages) are modelled from the specification and are
marked as such in their doc comments.
-/

set_option autoImplicit false

namespace Proxy

/-! ## Association maps

Go maps are embedded as association lists with first-match lookup.  `kvSet`
and `kvDelete` keep keys unique, matching Go map semantics; `kvWF` states
that the key list has no duplicates (true of every map built by `kvSet`
from empty, and assumed of the dataplane snapshots). -/

abbrev KVMap (K V : Type) : Type := List (K × V)

def kvLookup {K V : Type} [DecidableEq K] : KVMap K V → K → Option V
  | [], _ => none
  | (k, v) :: rest, key => if k = key then some v else kvLookup rest key

def kvDelete {K V : Type} [DecidableEq K] (m : KVMap K V) (key : K) : KVMap K V :=
  m.filter (fun p => decide (p.1 ≠ key))

def kvSet {K V : Type} [DecidableEq K] (m : KVMap K V) (key : K) (v : V) : KVMap K V :=
  (key, v) :: kvDelete m key

def kvContains {K V : Type} [DecidableEq K] (m : KVMap K V) (key : K) : Bool :=
  (kvLookup m key).isSome

def kvKeys {K V : Type} (m : KVMap K V) : List K := m.map Prod.fst

def kvWF {K V : Type} [DecidableEq K] (m : KVMap K V) : Prop := (kvKeys m).Nodup

theorem kvLookup_eq_none_iff {K V : Type} [DecidableEq K] (m : KVMap K V) (key : K) :
    kvLookup m key = none ↔ key ∉ kvKeys m := by
  induction m with
  | nil => simp [kvLookup, kvKeys]
  | cons p rest ih =>
    obtain ⟨k, v⟩ := p
    by_cases h : k = key
    · subst h; simp [kvLookup, kvKeys]
    · simp [kvLookup, kvKeys, h, ih, Ne.symm h]

theorem kvLookup_isSome_iff {K V : Type} [DecidableEq K] (m : KVMap K V) (key : K) :
    (kvLookup m key).isSome = true ↔ key ∈ kvKeys m := by
  rw [Option.isSome_iff_ne_none, ne_eq, kvLookup_eq_none_iff]
  simp

theorem kvLookup_mem {K V : Type} [DecidableEq K] (m : KVMap K V) (key : K) (v : V)
    (h : kvLookup m key = some v) : (key, v) ∈ m := by
  induction m with
  | nil => simp [kvLookup] at h
  | cons p rest ih =>
    obtain ⟨k, w⟩ := p
    by_cases hk : k = key
    · subst hk
      simp [kvLookup] at h
      simp [h]
    · simp [kvLookup, hk] at h
      exact List.mem_cons_of_mem _ (ih h)

theorem kvLookup_of_mem {K V : Type} [DecidableEq K] {m : KVMap K V} {key : K} {v : V}
    (hwf : kvWF m) (h : (key, v) ∈ m) : kvLookup m key = some v := by
  induction m with
  | nil => simp at h
  | cons p rest ih =>
    obtain ⟨k, w⟩ := p
    have hwf' : kvWF rest := (List.nodup_cons.mp hwf).2
    rcases List.mem_cons.mp h with h1 | h1
    · obtain ⟨hk, hv⟩ := Prod.mk.injEq .. ▸ h1
      simp_all [kvLookup]
    · have hk : k ≠ key := by
        intro he
        subst he
        exact (List.nodup_cons.mp hwf).1 (by
          simpa [kvKeys] using List.mem_map_of_mem Prod.fst h1)
      simp [kvLookup, hk, ih hwf' h1]

theorem kvLookup_delete {K V : Type} [DecidableEq K] (m : KVMap K V) (key k : K) :
    kvLookup (kvDelete m key) k = if k = key then none else kvLookup m k := by
  induction m with
  | nil => simp [kvDelete, kvLookup]
  | cons p rest ih =>
    obtain ⟨k0, v0⟩ := p
    by_cases h0 : k0 = key
    · subst h0
      have hfilter : kvDelete ((k0, v0) :: rest) k0 = kvDelete rest k0 := by
        simp [kvDelete]
      rw [hfilter, ih]
      by_cases hk : k = k0
      · simp [hk]
      · have h2 : ¬ k0 = k := fun h => hk h.symm
        simp [kvLookup, hk, h2]
    · have hfilter : kvDelete ((k0, v0) :: rest) key = (k0, v0) :: kvDelete rest key := by
        simp [kvDelete, h0]
      rw [hfilter]
      by_cases hk : k0 = k
      · subst hk
        have h2 : ¬ k0 = key := h0
        simp [kvLookup, h2]
      · simp only [kvLookup, hk, if_false]
        rw [ih]

theorem kvLookup_set {K V : Type} [DecidableEq K] (m : KVMap K V) (key k : K) (v : V) :
    kvLookup (kvSet m key v) k = if k = key then some v else kvLookup m k := by
  by_cases hk : k = key
  · subst hk; simp [kvSet, kvLookup]
  · have hk2 : ¬ key = k := fun h => hk h.symm
    simp [kvSet, kvLookup, hk2, kvLookup_delete, hk]

theorem kvWF_delete {K V : Type} [DecidableEq K] {m : KVMap K V} (hwf : kvWF m) (key : K) :
    kvWF (kvDelete m key) := by
  exact List.Nodup.sublist ((List.filter_sublist m).map Prod.fst) hwf

theorem kvWF_set {K V : Type} [DecidableEq K] {m : KVMap K V} (hwf : kvWF m) (key : K) (v : V) :
    kvWF (kvSet m key v) := by
  refine List.nodup_cons.mpr ⟨?_, kvWF_delete hwf key⟩
  intro hmem
  simp only [kvKeys, kvDelete, List.mem_map] at hmem
  obtain ⟨p, hp, hfst⟩ := hmem
  have := List.of_mem_filter hp
  simp [hfst] at this

/-! ## Data model

Addresses are abstracted to `Nat` (an injective encoding of textual IPs, so
Go's `net.IP.Equal` / `String()` comparisons both become `Nat` equality).
CIDRs keep an explicit address-family flag: `srcip.IP.To4() == nil` in the
source becomes `¬ c.v4`, and Go interface equality between a `V4CIDR` and a
`V6CIDR` value is `false`, which the family flag reproduces. -/

/-- A CIDR (`*net.IPNet` / `ip.CIDR` in the source), with its address family. -/
structure CIDR where
  v4 : Bool
  addr : Nat
  plen : Nat
  deriving DecidableEq, Repr

/-- k8s `v1.Protocol` restricted to the three values `ProtoV1ToInt` knows. -/
inductive Protocol where
  | TCP
  | UDP
  | SCTP
  deriving DecidableEq, Repr

/-- `ProtoV1ToInt`: the IANA protocol number (total on the embedded type). -/
def ProtoV1ToInt : Protocol → Nat
  | .TCP => 6
  | .UDP => 17
  | .SCTP => 132

/-- k8s `v1.ServiceAffinity`. -/
inductive SessionAffinity where
  | None
  | ClientIP
  deriving DecidableEq, Repr

/-- The `serviceInfo` struct of syncer.go: one service port of the desired
state, together with the `servicePortAnnotations` the syncer reads
(`ReapTerminatingUDP`, `ExcludeService`). -/
structure serviceInfo where
  clusterIP : Nat
  port : Nat
  protocol : Protocol
  nodePort : Nat
  sessionAffinityType : SessionAffinity
  stickyMaxAgeSeconds : Nat
  externalIPs : List Nat
  loadBalancerSourceRanges : List CIDR
  loadBalancerVIPs : List Nat
  healthCheckNodePort : Nat
  nodeLocalExternal : Bool
  nodeLocalInternal : Bool
  hintsAnn : String
  reapTerminatingUDP : Bool
  excludeService : Bool
  deriving DecidableEq, Repr

/-- `serviceInfo.ExternallyAccessible`. -/
def ExternallyAccessible (info : serviceInfo) : Bool :=
  info.nodePort != 0 || !info.loadBalancerVIPs.isEmpty || !info.externalIPs.isEmpty

/-- `serviceInfo.UsesClusterEndpoints`. -/
def UsesClusterEndpoints (info : serviceInfo) : Bool :=
  !info.nodeLocalInternal || ExternallyAccessible info

/-- `serviceInfo.UsesLocalEndpoints`. -/
def UsesLocalEndpoints (info : serviceInfo) : Bool :=
  info.nodeLocalInternal || (info.nodeLocalExternal && ExternallyAccessible info)

/-- `cidrEqual`: set-style equality of two CIDR/IP lists as in syncer.go
(length check, a single-element fast path, then a one-sided membership
check of `b`'s elements in `a`). -/
def cidrEqual {α : Type} [DecidableEq α] (a b : List α) : Bool :=
  if a.length != b.length then false
  else
    match a, b with
    | [x], [y] => x == y
    | _, _ => b.all (fun s => decide (s ∈ a))

/-- `ServicePortEqual`: equality over every observable method of a service
port, exactly the conjunction of syncer.go. -/
def ServicePortEqual (a b : serviceInfo) : Bool :=
  a.clusterIP == b.clusterIP &&
  a.port == b.port &&
  a.sessionAffinityType == b.sessionAffinityType &&
  a.stickyMaxAgeSeconds == b.stickyMaxAgeSeconds &&
  cidrEqual a.externalIPs b.externalIPs &&
  cidrEqual a.loadBalancerVIPs b.loadBalancerVIPs &&
  a.protocol == b.protocol &&
  cidrEqual a.loadBalancerSourceRanges b.loadBalancerSourceRanges &&
  a.healthCheckNodePort == b.healthCheckNodePort &&
  a.nodePort == b.nodePort &&
  a.nodeLocalExternal == b.nodeLocalExternal &&
  a.nodeLocalInternal == b.nodeLocalInternal &&
  a.hintsAnn == b.hintsAnn &&
  ExternallyAccessible a == ExternallyAccessible b &&
  UsesClusterEndpoints a == UsesClusterEndpoints b &&
  UsesLocalEndpoints a == UsesLocalEndpoints b

/-- A k8s endpoint as the syncer reads it. -/
structure Endpoint where
  addr : Nat
  port : Nat
  isLocal : Bool
  isReady : Bool
  isTerminating : Bool
  deriving DecidableEq, Repr

/-- `svcType`. -/
inductive svcType where
  | svcTypeExternalIP
  | svcTypeNodePort
  | svcTypeNodePortRemote
  | svcTypeLoadBalancer
  deriving DecidableEq, Repr

/-- `svcType2String`. -/
def svcType2String : svcType → String
  | .svcTypeNodePort => "NodePort"
  | .svcTypeExternalIP => "ExternalIP"
  | .svcTypeNodePortRemote => "NodePortRemote"
  | .svcTypeLoadBalancer => "LoadBalancer"

/-- `svcKey`: a service-port name plus a discriminator string. -/
structure svcKey where
  sname : String
  extra : String
  deriving DecidableEq, Repr

/-- `getSvcKey`. -/
def getSvcKey (sname : String) (extra : String) : svcKey := ⟨sname, extra⟩

/-- `getSvcKeyExtra`: the `"{kind}:{address}"` discriminator. -/
def getSvcKeyExtra (t : svcType) (addr : Nat) : String :=
  svcType2String t ++ ":" ++ toString addr

/-- `hasSvcKeyExtra`: `strings.HasPrefix(skey.extra, kind + ":")`
(the prefix test is on the character list so that it evaluates in the
kernel). -/
def hasSvcKeyExtra (skey : svcKey) (t : svcType) : Bool :=
  (svcType2String t ++ ":").data.isPrefixOf skey.extra.data

/-- `isSvcKeyDerived`. -/
def isSvcKeyDerived (skey : svcKey) : Bool :=
  hasSvcKeyExtra skey .svcTypeExternalIP ||
  hasSvcKeyExtra skey .svcTypeNodePort ||
  hasSvcKeyExtra skey .svcTypeLoadBalancer

/-- `svcInfo`: the syncer's record of a programmed service. -/
structure svcInfo where
  id : Nat
  count : Nat
  localCount : Nat
  svc : serviceInfo
  deriving DecidableEq, Repr

/-! ## Kernel map schema

The `nat` package (frontend/backend keys and values) is not among the
provided sources; its records are modelled from the spec (§3 Data model):
frontend key `{address, port, protocol, src-CIDR}` with zero src-CIDR
meaning any source, frontend value `{id, count, local-count,
affinity-timeout, flags}` with a reserved BlackHole count, backend key
`{id, slot}` and backend value `{address, port}`. -/

/-- Modelled from the spec: the frontend key of the `nat` package. -/
structure FrontendKey where
  addr : Nat
  port : Nat
  proto : Nat
  srcCIDR : CIDR
  deriving DecidableEq, Repr

/-- Modelled from the spec: the frontend value of the `nat` package. -/
structure FrontendValue where
  id : Nat
  count : Nat
  localCount : Nat
  affinityTimeo : Nat
  flags : Nat
  deriving DecidableEq, Repr

/-- Modelled from the spec: the backend key `{id, slot-index}`
(`nat.NewNATBackendKey`). -/
structure BackendKey where
  id : Nat
  idx : Nat
  deriving DecidableEq, Repr

/-- Modelled from the spec: the backend value `{address, port}`. -/
structure BackendValue where
  addr : Nat
  port : Nat
  deriving DecidableEq, Repr

/-- Modelled from the spec: `nat.BlackHoleCount`, the reserved sentinel
count meaning match-but-drop. -/
def BlackHoleCount : Nat := 4294967295

/-- Modelled from the spec: the zero (any-source) IPv4 CIDR. -/
def zeroCIDR4 : CIDR := ⟨true, 0, 0⟩

/-- Modelled from the spec: the zero (any-source) IPv6 CIDR. -/
def zeroCIDR6 : CIDR := ⟨false, 0, 0⟩

/-- Modelled from the spec: the zero src-CIDR test of the `nat` package
(`bpfSvc.SrcCIDR() == nat.ZeroCIDR`); the spec reads src-CIDR = zero as
"any source", for either family. -/
def isZeroCIDR (c : CIDR) : Bool := c == zeroCIDR4 || c == zeroCIDR6

/-- Modelled from the spec: the family-dependent zero src-CIDR used by the
plain frontend-key constructors. -/
def natZeroCIDR (family : Nat) : CIDR := if family == 6 then zeroCIDR6 else zeroCIDR4

/-- Modelled from the spec: `newFrontendKey` — the plain constructor sets
the any-source src-CIDR of the syncer's family. -/
def newFrontendKey (family : Nat) (addr port proto : Nat) : FrontendKey :=
  ⟨addr, port, proto, natZeroCIDR family⟩

/-- Modelled from the spec: `newFrontendKeySrc`. -/
def newFrontendKeySrc (_family : Nat) (addr port proto : Nat) (cidr : CIDR) : FrontendKey :=
  ⟨addr, port, proto, cidr⟩

/-- Modelled from the spec: `nat.NewNATValueWithFlags`. -/
def NewNATValueWithFlags (id count localCount affinityTimeo flags : Nat) : FrontendValue :=
  ⟨id, count, localCount, affinityTimeo, flags⟩

/-- Modelled from the spec: `nat.NewNATValue` (zero flags). -/
def NewNATValue (id count localCount affinityTimeo : Nat) : FrontendValue :=
  ⟨id, count, localCount, affinityTimeo, 0⟩

/-- Modelled from the spec: the frontend key's `AffinityKey()` projection
drops the src-CIDR. -/
structure FEAffKey where
  addr : Nat
  port : Nat
  proto : Nat
  deriving DecidableEq, Repr

/-- Modelled from the spec: `key.AffinityKeyCopy()`. -/
def affinityKeyOf (k : FrontendKey) : FEAffKey := ⟨k.addr, k.port, k.proto⟩

/-- Modelled from the spec: `nat.NATFlgExternalLocal` (a distinct flag bit). -/
def NATFlgExternalLocal : Nat := 1

/-- Modelled from the spec: `nat.NATFlgInternalLocal` (a distinct flag bit). -/
def NATFlgInternalLocal : Nat := 2

/-- Modelled from the spec: `nat.NATFlgExclude` (a distinct flag bit). -/
def NATFlgExclude : Nat := 4

/-- `stickyFrontend` (timeout in nanoseconds, as
`time.Duration(affinityTimeo) * time.Second`). -/
structure stickyFrontend where
  id : Nat
  timeo : Int
  deriving DecidableEq, Repr

/-- The all-ones IPv4 node-port sentinel `podNPIP` (255.255.255.255),
as a distinguished address constant. -/
def podNPIP : Nat := 4294967295

/-- The all-ones IPv6 node-port sentinel `podNPIPV6`. -/
def podNPIPV6 : Nat := 340282366920938463463374607431768211455

/-! ## Syncer state and the write path

The mutable fields of the Go `Syncer` that the claims touch, as a record
threaded through the embedded functions.  The `excludedCIDRs` trie is
modelled as empty (its LPM test contributes only an extra flag bit and no
claim mentions it). -/

structure Syncer where
  ipFamily : Nat
  nodePortIPs : List Nat
  nextSvcID : Nat
  desiredSvcs : KVMap FrontendKey FrontendValue
  desiredEps : KVMap BackendKey BackendValue
  newSvcMap : KVMap svcKey svcInfo
  newEpsMap : KVMap String (List Endpoint)
  prevSvcMap : KVMap svcKey svcInfo
  prevEpsMap : KVMap String (List (Nat × Nat))
  stickySvcs : KVMap FEAffKey stickyFrontend
  stickyEps : KVMap Nat (List BackendValue)
  deriving Repr

/-- `newSvcID`: issue the next id and advance the counter.  The Go counter
is a `uint32`, so the increment wraps at `2^32`. -/
def newSvcID (s : Syncer) : Nat × Syncer :=
  (s.nextSvcID, { s with nextSvcID := (s.nextSvcID + 1) % 4294967296 })

/-- `writeSvcBackend`: set desired backend slot `(svcID, idx)` and record
the value among the sticky endpoints when the service is sticky. -/
def writeSvcBackend (s : Syncer) (svcID idx : Nat) (ep : Endpoint) : Syncer :=
  let val : BackendValue := ⟨ep.addr, ep.port⟩
  let s1 := { s with desiredEps := kvSet s.desiredEps ⟨svcID, idx⟩ val }
  match kvLookup s1.stickyEps svcID with
  | some l => { s1 with stickyEps := kvSet s1.stickyEps svcID (val :: l) }
  | none => s1

/-- The first loop of `updateService`: walk `eps`, skip non-locals, write a
backend slot for each ready endpoint (bumping both counters), and collect
every local endpoint into `cpEps`. -/
def updateSvcLoopLocals (svcID : Nat) :
    Syncer → Nat → Nat → List Endpoint → Syncer × Nat × Nat × List Endpoint
  | s, cnt, localCnt, [] => (s, cnt, localCnt, [])
  | s, cnt, localCnt, ep :: rest =>
    if !ep.isLocal then
      updateSvcLoopLocals svcID s cnt localCnt rest
    else if ep.isReady then
      let r := updateSvcLoopLocals svcID (writeSvcBackend s svcID cnt ep) (cnt + 1) (localCnt + 1) rest
      (r.1, r.2.1, r.2.2.1, ep :: r.2.2.2)
    else
      let r := updateSvcLoopLocals svcID s cnt localCnt rest
      (r.1, r.2.1, r.2.2.1, ep :: r.2.2.2)

/-- The second loop of `updateService`: walk `eps`, skip locals, write a
backend slot for each ready endpoint (bumping only `cnt`), and collect
every non-local endpoint into `cpEps`. -/
def updateSvcLoopNonLocals (svcID : Nat) :
    Syncer → Nat → List Endpoint → Syncer × Nat × List Endpoint
  | s, cnt, [] => (s, cnt, [])
  | s, cnt, ep :: rest =>
    if ep.isLocal then
      updateSvcLoopNonLocals svcID s cnt rest
    else if ep.isReady then
      let r := updateSvcLoopNonLocals svcID (writeSvcBackend s svcID cnt ep) (cnt + 1) rest
      (r.1, r.2.1, ep :: r.2.2)
    else
      let r := updateSvcLoopNonLocals svcID s cnt rest
      (r.1, r.2.1, ep :: r.2.2)

/-- `getSvcNATKey`. -/
def getSvcNATKey (family : Nat) (svc : serviceInfo) : FrontendKey :=
  newFrontendKey family svc.clusterIP svc.port (ProtoV1ToInt svc.protocol)

/-- The loop of `getSvcNATKeyLBSrcRange`: an IPv6 source range is kept only
by the IPv6 syncer, an IPv4 one only by the non-IPv6 syncer. -/
def lbSrcRangeKeys (family : Nat) (ipaddr port proto : Nat) : List CIDR → List FrontendKey
  | [] => []
  | src :: rest =>
    if !src.v4 then
      if family != 6 then lbSrcRangeKeys family ipaddr port proto rest
      else newFrontendKeySrc family ipaddr port proto src :: lbSrcRangeKeys family ipaddr port proto rest
    else
      if family == 6 then lbSrcRangeKeys family ipaddr port proto rest
      else newFrontendKeySrc family ipaddr port proto src :: lbSrcRangeKeys family ipaddr port proto rest

/-- `getSvcNATKeyLBSrcRange`. -/
def getSvcNATKeyLBSrcRange (family : Nat) (svc : serviceInfo) : List FrontendKey :=
  lbSrcRangeKeys family svc.clusterIP svc.port (ProtoV1ToInt svc.protocol)
    svc.loadBalancerSourceRanges

/-- `writeSvc`: set the desired frontend for `svc` and, for a sticky
service, record the sticky frontend under the affinity-key projection. -/
def writeSvc (s : Syncer) (svc : serviceInfo) (svcID cnt localCnt flags : Nat) : Syncer :=
  let key := getSvcNATKey s.ipFamily svc
  let flags := if svc.excludeService then flags ||| NATFlgExclude else flags
  let affinityTimeo := if svc.sessionAffinityType == .ClientIP then svc.stickyMaxAgeSeconds else 0
  let val := NewNATValueWithFlags svcID cnt localCnt affinityTimeo flags
  let s := { s with desiredSvcs := kvSet s.desiredSvcs key val }
  if (kvLookup s.stickyEps svcID).isSome then
    { s with stickySvcs :=
        kvSet s.stickySvcs (affinityKeyOf key) ⟨svcID, (affinityTimeo : Int) * 1000000000⟩ }
  else s

/-- `writeLBSrcRangeSvcNATKeys`: nothing when the service has no source
ranges; otherwise one desired frontend per family-matching source range
with the real value, then the zero-src-CIDR blackhole entry. -/
def writeLBSrcRangeSvcNATKeys (s : Syncer) (svc : serviceInfo)
    (svcID cnt localCnt flags : Nat) : Syncer :=
  let affinityTimeo := if svc.sessionAffinityType == .ClientIP then svc.stickyMaxAgeSeconds else 0
  if svc.loadBalancerSourceRanges.isEmpty then s
  else
    let keys := getSvcNATKeyLBSrcRange s.ipFamily svc
    let val := NewNATValueWithFlags svcID cnt localCnt affinityTimeo flags
    let s := { s with desiredSvcs := keys.foldl (fun m k => kvSet m k val) s.desiredSvcs }
    let key := getSvcNATKey s.ipFamily svc
    { s with desiredSvcs := kvSet s.desiredSvcs key (NewNATValue svcID BlackHoleCount 0 0) }

/-- The sticky-endpoint preallocation at the top of `updateService`. -/
def preallocSticky (s : Syncer) (sinfo : serviceInfo) (id : Nat) : Syncer :=
  if sinfo.sessionAffinityType == .ClientIP then
    { s with stickyEps := kvSet s.stickyEps id [] }
  else s

/-- `updateService`: preallocate the sticky-endpoint set for a sticky
service, run the two slot-writing loops (locals first), write the primary
frontend, and record `cpEps` in `newEpsMap` unless the key is a
`NodePortRemote` one.  Returns `(count, local)`. -/
def updateService (s : Syncer) (skey : svcKey) (sinfo : serviceInfo) (id : Nat)
    (eps : List Endpoint) : Syncer × Nat × Nat :=
  let s0 := preallocSticky s sinfo id
  let r1 := updateSvcLoopLocals id s0 0 0 eps
  let r2 := updateSvcLoopNonLocals id r1.1 r1.2.1 eps
  let cnt := r2.2.1
  let localCnt := r1.2.2.1
  let cpEps := r1.2.2.2 ++ r2.2.2
  let flags := if sinfo.nodeLocalInternal then NATFlgInternalLocal else 0
  let s3 := writeSvc r2.1 sinfo id cnt localCnt flags
  let s4 := if !(hasSvcKeyExtra skey .svcTypeNodePortRemote) then
      { s3 with newEpsMap := kvSet s3.newEpsMap skey.sname cpEps } else s3
  (s4, cnt, localCnt)

/-- `applySvc`: reuse the previous id when `ServicePortEqual` holds on the
previous entry, else issue a fresh one; then run `updateService` and record
the new `svcInfo`. -/
def applySvc (s : Syncer) (skey : svcKey) (sinfo : serviceInfo) (eps : List Endpoint) : Syncer :=
  let p :=
    match kvLookup s.prevSvcMap skey with
    | some old => if ServicePortEqual old.svc sinfo then (old.id, s) else newSvcID s
    | none => newSvcID s
  let id := p.1
  let r := updateService p.2 skey sinfo id eps
  { r.1 with newSvcMap := kvSet r.1.newSvcMap skey ⟨id, r.2.1, r.2.2, sinfo⟩ }

/-! ## Characterization of the slot-writing loops (claim C2) -/

/-- The backend value written for an endpoint. -/
def epPair (ep : Endpoint) : BackendValue := ⟨ep.addr, ep.port⟩

theorem writeSvcBackend_desiredEps (s : Syncer) (svcID idx : Nat) (ep : Endpoint) :
    (writeSvcBackend s svcID idx ep).desiredEps
      = kvSet s.desiredEps ⟨svcID, idx⟩ (epPair ep) := by
  simp only [writeSvcBackend, epPair]
  split <;> rfl

theorem writeSvcBackend_frame (s : Syncer) (svcID idx : Nat) (ep : Endpoint) :
    (writeSvcBackend s svcID idx ep).ipFamily = s.ipFamily ∧
    (writeSvcBackend s svcID idx ep).desiredSvcs = s.desiredSvcs ∧
    (writeSvcBackend s svcID idx ep).newSvcMap = s.newSvcMap ∧
    (writeSvcBackend s svcID idx ep).newEpsMap = s.newEpsMap ∧
    (writeSvcBackend s svcID idx ep).prevSvcMap = s.prevSvcMap ∧
    (writeSvcBackend s svcID idx ep).nextSvcID = s.nextSvcID := by
  simp only [writeSvcBackend]
  split <;> exact ⟨rfl, rfl, rfl, rfl, rfl, rfl⟩

theorem updateSvcLoopLocals_frame (svcID : Nat) (eps : List Endpoint) :
    ∀ (s : Syncer) (cnt localCnt : Nat),
    (updateSvcLoopLocals svcID s cnt localCnt eps).1.ipFamily = s.ipFamily ∧
    (updateSvcLoopLocals svcID s cnt localCnt eps).1.desiredSvcs = s.desiredSvcs ∧
    (updateSvcLoopLocals svcID s cnt localCnt eps).1.newSvcMap = s.newSvcMap ∧
    (updateSvcLoopLocals svcID s cnt localCnt eps).1.newEpsMap = s.newEpsMap ∧
    (updateSvcLoopLocals svcID s cnt localCnt eps).1.prevSvcMap = s.prevSvcMap ∧
    (updateSvcLoopLocals svcID s cnt localCnt eps).1.nextSvcID = s.nextSvcID := by
  induction eps with
  | nil => intro s cnt localCnt; exact ⟨rfl, rfl, rfl, rfl, rfl, rfl⟩
  | cons ep rest ih =>
    intro s cnt localCnt
    by_cases hl : ep.isLocal
    · by_cases hr : ep.isReady
      · have hw := writeSvcBackend_frame s svcID cnt ep
        have := ih (writeSvcBackend s svcID cnt ep) (cnt + 1) (localCnt + 1)
        simp only [updateSvcLoopLocals, hl, hr, Bool.not_true, if_false, if_true]
        exact ⟨this.1.trans hw.1, this.2.1.trans hw.2.1, this.2.2.1.trans hw.2.2.1,
          this.2.2.2.1.trans hw.2.2.2.1, this.2.2.2.2.1.trans hw.2.2.2.2.1,
          this.2.2.2.2.2.trans hw.2.2.2.2.2⟩
      · have := ih s cnt localCnt
        simp only [updateSvcLoopLocals, hl, hr, Bool.not_true, if_false, if_true]
        exact this
    · have := ih s cnt localCnt
      simp only [updateSvcLoopLocals, hl, Bool.not_false, if_true]
      exact this

theorem updateSvcLoopNonLocals_frame (svcID : Nat) (eps : List Endpoint) :
    ∀ (s : Syncer) (cnt : Nat),
    (updateSvcLoopNonLocals svcID s cnt eps).1.ipFamily = s.ipFamily ∧
    (updateSvcLoopNonLocals svcID s cnt eps).1.desiredSvcs = s.desiredSvcs ∧
    (updateSvcLoopNonLocals svcID s cnt eps).1.newSvcMap = s.newSvcMap ∧
    (updateSvcLoopNonLocals svcID s cnt eps).1.newEpsMap = s.newEpsMap ∧
    (updateSvcLoopNonLocals svcID s cnt eps).1.prevSvcMap = s.prevSvcMap ∧
    (updateSvcLoopNonLocals svcID s cnt eps).1.nextSvcID = s.nextSvcID := by
  induction eps with
  | nil => intro s cnt; exact ⟨rfl, rfl, rfl, rfl, rfl, rfl⟩
  | cons ep rest ih =>
    intro s cnt
    by_cases hl : ep.isLocal
    · have := ih s cnt
      simp only [updateSvcLoopNonLocals, hl, if_true]
      exact this
    · by_cases hr : ep.isReady
      · have hw := writeSvcBackend_frame s svcID cnt ep
        have := ih (writeSvcBackend s svcID cnt ep) (cnt + 1)
        simp only [updateSvcLoopNonLocals, hl, hr, if_false, if_true]
        exact ⟨this.1.trans hw.1, this.2.1.trans hw.2.1, this.2.2.1.trans hw.2.2.1,
          this.2.2.2.1.trans hw.2.2.2.1, this.2.2.2.2.1.trans hw.2.2.2.2.1,
          this.2.2.2.2.2.trans hw.2.2.2.2.2⟩
      · have := ih s cnt
        simp only [updateSvcLoopNonLocals, hl, hr, if_false]
        exact this

theorem updateSvcLoopLocals_spec (svcID : Nat) (eps : List Endpoint) :
    ∀ (s : Syncer) (cnt localCnt : Nat),
    (updateSvcLoopLocals svcID s cnt localCnt eps).2.1
        = cnt + (eps.filter (fun e => e.isLocal && e.isReady)).length ∧
    (updateSvcLoopLocals svcID s cnt localCnt eps).2.2.1
        = localCnt + (eps.filter (fun e => e.isLocal && e.isReady)).length ∧
    (updateSvcLoopLocals svcID s cnt localCnt eps).2.2.2 = eps.filter (fun e => e.isLocal) ∧
    (∀ bk : BackendKey, bk.idx < cnt →
      kvLookup (updateSvcLoopLocals svcID s cnt localCnt eps).1.desiredEps bk
        = kvLookup s.desiredEps bk) ∧
    (∀ j, j < (eps.filter (fun e => e.isLocal && e.isReady)).length →
      kvLookup (updateSvcLoopLocals svcID s cnt localCnt eps).1.desiredEps ⟨svcID, cnt + j⟩
        = ((eps.filter (fun e => e.isLocal && e.isReady))[j]?).map epPair) := by
  induction eps with
  | nil =>
    intro s cnt localCnt
    refine ⟨by simp [updateSvcLoopLocals], by simp [updateSvcLoopLocals],
      by simp [updateSvcLoopLocals], fun bk _ => rfl, fun j h => by simp at h⟩
  | cons ep rest ih =>
    intro s cnt localCnt
    by_cases hl : ep.isLocal
    · by_cases hr : ep.isReady
      · have hfl : (ep :: rest).filter (fun e => e.isLocal && e.isReady)
            = ep :: rest.filter (fun e => e.isLocal && e.isReady) := by
          simp [List.filter_cons, hl, hr]
        have hfl2 : (ep :: rest).filter (fun e => e.isLocal)
            = ep :: rest.filter (fun e => e.isLocal) := by
          simp [List.filter_cons, hl]
        have hstep : updateSvcLoopLocals svcID s cnt localCnt (ep :: rest)
            = (let r := updateSvcLoopLocals svcID (writeSvcBackend s svcID cnt ep)
                (cnt + 1) (localCnt + 1) rest
               (r.1, r.2.1, r.2.2.1, ep :: r.2.2.2)) := by
          simp [updateSvcLoopLocals, hl, hr]
        obtain ⟨ih1, ih2, ih3, ih4, ih5⟩ :=
          ih (writeSvcBackend s svcID cnt ep) (cnt + 1) (localCnt + 1)
        rw [hstep]
        refine ⟨by simp [ih1, hfl]; omega, by simp [ih2, hfl]; omega,
          by simp [ih3, hfl2], ?_, ?_⟩
        · intro bk hbk
          have h1 := ih4 bk (Nat.lt_succ_of_lt hbk)
          simp only [h1, writeSvcBackend_desiredEps, kvLookup_set]
          have : ¬ bk = ⟨svcID, cnt⟩ := by
            intro he; subst he; exact absurd hbk (Nat.lt_irrefl _)
          simp [this]
        · intro j h
          rw [hfl]
          match j with
          | 0 =>
            have h1 := ih4 ⟨svcID, cnt⟩ (Nat.lt_succ_self cnt)
            simp only [Nat.add_zero, List.getElem?_cons_zero, Option.map_some]
            rw [h1, writeSvcBackend_desiredEps, kvLookup_set]
            simp
          | j + 1 =>
            rw [hfl] at h
            have hj : j < (rest.filter (fun e => e.isLocal && e.isReady)).length := by
              simpa using Nat.lt_of_succ_lt_succ h
            have h2 := ih5 j hj
            have hidx : cnt + (j + 1) = (cnt + 1) + j := by omega
            rw [hidx]
            simpa using h2
      · have hfl : (ep :: rest).filter (fun e => e.isLocal && e.isReady)
            = rest.filter (fun e => e.isLocal && e.isReady) := by
          simp [List.filter_cons, hr]
        have hfl2 : (ep :: rest).filter (fun e => e.isLocal)
            = ep :: rest.filter (fun e => e.isLocal) := by
          simp [List.filter_cons, hl]
        have hstep : updateSvcLoopLocals svcID s cnt localCnt (ep :: rest)
            = (let r := updateSvcLoopLocals svcID s cnt localCnt rest
               (r.1, r.2.1, r.2.2.1, ep :: r.2.2.2)) := by
          simp [updateSvcLoopLocals, hl, hr]
        obtain ⟨ih1, ih2, ih3, ih4, ih5⟩ := ih s cnt localCnt
        rw [hstep]
        exact ⟨by simp [ih1, hfl], by simp [ih2, hfl], by simp [ih3, hfl2],
          fun bk hbk => ih4 bk hbk, fun j h => by rw [hfl]; exact ih5 j (by rw [hfl] at h; exact h)⟩
    · have hfl : (ep :: rest).filter (fun e => e.isLocal && e.isReady)
          = rest.filter (fun e => e.isLocal && e.isReady) := by
        simp [List.filter_cons, hl]
      have hfl2 : (ep :: rest).filter (fun e => e.isLocal)
          = rest.filter (fun e => e.isLocal) := by
        simp [List.filter_cons, hl]
      have hstep : updateSvcLoopLocals svcID s cnt localCnt (ep :: rest)
          = updateSvcLoopLocals svcID s cnt localCnt rest := by
        simp [updateSvcLoopLocals, hl]
      obtain ⟨ih1, ih2, ih3, ih4, ih5⟩ := ih s cnt localCnt
      rw [hstep]
      exact ⟨by simp [ih1, hfl], by simp [ih2, hfl], by simp [ih3, hfl2],
        fun bk hbk => ih4 bk hbk, fun j h => by rw [hfl]; exact ih5 j (by rw [hfl] at h; exact h)⟩

theorem updateSvcLoopNonLocals_spec (svcID : Nat) (eps : List Endpoint) :
    ∀ (s : Syncer) (cnt : Nat),
    (updateSvcLoopNonLocals svcID s cnt eps).2.1
        = cnt + (eps.filter (fun e => !e.isLocal && e.isReady)).length ∧
    (updateSvcLoopNonLocals svcID s cnt eps).2.2 = eps.filter (fun e => !e.isLocal) ∧
    (∀ bk : BackendKey, bk.idx < cnt →
      kvLookup (updateSvcLoopNonLocals svcID s cnt eps).1.desiredEps bk
        = kvLookup s.desiredEps bk) ∧
    (∀ j, j < (eps.filter (fun e => !e.isLocal && e.isReady)).length →
      kvLookup (updateSvcLoopNonLocals svcID s cnt eps).1.desiredEps ⟨svcID, cnt + j⟩
        = ((eps.filter (fun e => !e.isLocal && e.isReady))[j]?).map epPair) := by
  induction eps with
  | nil =>
    intro s cnt
    refine ⟨by simp [updateSvcLoopNonLocals], by simp [updateSvcLoopNonLocals],
      fun bk _ => rfl, fun j h => by simp at h⟩
  | cons ep rest ih =>
    intro s cnt
    by_cases hl : ep.isLocal
    · have hfl : (ep :: rest).filter (fun e => !e.isLocal && e.isReady)
          = rest.filter (fun e => !e.isLocal && e.isReady) := by
        simp [List.filter_cons, hl]
      have hfl2 : (ep :: rest).filter (fun e => !e.isLocal)
          = rest.filter (fun e => !e.isLocal) := by
        simp [List.filter_cons, hl]
      have hstep : updateSvcLoopNonLocals svcID s cnt (ep :: rest)
          = updateSvcLoopNonLocals svcID s cnt rest := by
        simp [updateSvcLoopNonLocals, hl]
      obtain ⟨ih1, ih2, ih3, ih4⟩ := ih s cnt
      rw [hstep]
      exact ⟨by simp [ih1, hfl], by simp [ih2, hfl2], fun bk hbk => ih3 bk hbk,
        fun j h => by rw [hfl]; exact ih4 j (by rw [hfl] at h; exact h)⟩
    · by_cases hr : ep.isReady
      · have hfl : (ep :: rest).filter (fun e => !e.isLocal && e.isReady)
            = ep :: rest.filter (fun e => !e.isLocal && e.isReady) := by
          simp [List.filter_cons, hl, hr]
        have hfl2 : (ep :: rest).filter (fun e => !e.isLocal)
            = ep :: rest.filter (fun e => !e.isLocal) := by
          simp [List.filter_cons, hl]
        have hstep : updateSvcLoopNonLocals svcID s cnt (ep :: rest)
            = (let r := updateSvcLoopNonLocals svcID (writeSvcBackend s svcID cnt ep)
                (cnt + 1) rest
               (r.1, r.2.1, ep :: r.2.2)) := by
          simp [updateSvcLoopNonLocals, hl, hr]
        obtain ⟨ih1, ih2, ih3, ih4⟩ := ih (writeSvcBackend s svcID cnt ep) (cnt + 1)
        rw [hstep]
        refine ⟨by simp [ih1, hfl]; omega, by simp [ih2, hfl2], ?_, ?_⟩
        · intro bk hbk
          have h1 := ih3 bk (Nat.lt_succ_of_lt hbk)
          simp only [h1, writeSvcBackend_desiredEps, kvLookup_set]
          have : ¬ bk = ⟨svcID, cnt⟩ := by
            intro he; subst he; exact absurd hbk (Nat.lt_irrefl _)
          simp [this]
        · intro j h
          rw [hfl]
          match j with
          | 0 =>
            have h1 := ih3 ⟨svcID, cnt⟩ (Nat.lt_succ_self cnt)
            simp only [Nat.add_zero, List.getElem?_cons_zero, Option.map_some]
            rw [h1, writeSvcBackend_desiredEps, kvLookup_set]
            simp
          | j + 1 =>
            rw [hfl] at h
            have hj : j < (rest.filter (fun e => !e.isLocal && e.isReady)).length := by
              simpa using Nat.lt_of_succ_lt_succ h
            have h2 := ih4 j hj
            have hidx : cnt + (j + 1) = (cnt + 1) + j := by omega
            rw [hidx]
            simpa using h2
      · have hfl : (ep :: rest).filter (fun e => !e.isLocal && e.isReady)
            = rest.filter (fun e => !e.isLocal && e.isReady) := by
          simp [List.filter_cons, hr]
        have hfl2 : (ep :: rest).filter (fun e => !e.isLocal)
            = ep :: rest.filter (fun e => !e.isLocal) := by
          simp [List.filter_cons, hl]
        have hstep : updateSvcLoopNonLocals svcID s cnt (ep :: rest)
            = (let r := updateSvcLoopNonLocals svcID s cnt rest
               (r.1, r.2.1, ep :: r.2.2)) := by
          simp [updateSvcLoopNonLocals, hl, hr]
        obtain ⟨ih1, ih2, ih3, ih4⟩ := ih s cnt
        rw [hstep]
        exact ⟨by simp [ih1, hfl], by simp [ih2, hfl2], fun bk hbk => ih3 bk hbk,
          fun j h => by rw [hfl]; exact ih4 j (by rw [hfl] at h; exact h)⟩

theorem preallocSticky_frame (s : Syncer) (sinfo : serviceInfo) (id : Nat) :
    (preallocSticky s sinfo id).ipFamily = s.ipFamily ∧
    (preallocSticky s sinfo id).desiredSvcs = s.desiredSvcs ∧
    (preallocSticky s sinfo id).desiredEps = s.desiredEps ∧
    (preallocSticky s sinfo id).newSvcMap = s.newSvcMap ∧
    (preallocSticky s sinfo id).newEpsMap = s.newEpsMap ∧
    (preallocSticky s sinfo id).prevSvcMap = s.prevSvcMap ∧
    (preallocSticky s sinfo id).nextSvcID = s.nextSvcID := by
  unfold preallocSticky
  split <;> exact ⟨rfl, rfl, rfl, rfl, rfl, rfl, rfl⟩

/-- The affinity timeout `writeSvc` computes. -/
def affTimeoOf (svc : serviceInfo) : Nat :=
  if svc.sessionAffinityType == .ClientIP then svc.stickyMaxAgeSeconds else 0

theorem writeSvc_desiredSvcs (s : Syncer) (svc : serviceInfo) (svcID cnt localCnt flags : Nat) :
    (writeSvc s svc svcID cnt localCnt flags).desiredSvcs
      = kvSet s.desiredSvcs (getSvcNATKey s.ipFamily svc)
          (NewNATValueWithFlags svcID cnt localCnt (affTimeoOf svc)
            (if svc.excludeService then flags ||| NATFlgExclude else flags)) := by
  simp only [writeSvc, affTimeoOf]
  split <;> rfl

theorem writeSvc_frame (s : Syncer) (svc : serviceInfo) (svcID cnt localCnt flags : Nat) :
    (writeSvc s svc svcID cnt localCnt flags).ipFamily = s.ipFamily ∧
    (writeSvc s svc svcID cnt localCnt flags).desiredEps = s.desiredEps ∧
    (writeSvc s svc svcID cnt localCnt flags).newSvcMap = s.newSvcMap ∧
    (writeSvc s svc svcID cnt localCnt flags).newEpsMap = s.newEpsMap ∧
    (writeSvc s svc svcID cnt localCnt flags).prevSvcMap = s.prevSvcMap ∧
    (writeSvc s svc svcID cnt localCnt flags).nextSvcID = s.nextSvcID ∧
    (writeSvc s svc svcID cnt localCnt flags).stickyEps = s.stickyEps := by
  simp only [writeSvc]
  split <;> exact ⟨rfl, rfl, rfl, rfl, rfl, rfl, rfl⟩

theorem mapRange_eq {α β : Type} (l : List α) (f : Nat → β) (g : α → β)
    (h : ∀ (j : Nat) (hj : j < l.length), f j = g (l.get ⟨j, hj⟩)) :
    (List.range l.length).map f = l.map g := by
  apply List.ext_getElem
  · simp
  · intro i h1 h2
    simp only [List.getElem_map, List.getElem_range]
    rw [h i (by simpa using h1)]
    rfl

theorem ite_newEpsMap_desiredEps (c : Prop) [Decidable c] (st : Syncer)
    (m : KVMap String (List Endpoint)) :
    (if c then { st with newEpsMap := m } else st).desiredEps = st.desiredEps := by
  split <;> rfl

theorem ite_newEpsMap_desiredSvcs (c : Prop) [Decidable c] (st : Syncer)
    (m : KVMap String (List Endpoint)) :
    (if c then { st with newEpsMap := m } else st).desiredSvcs = st.desiredSvcs := by
  split <;> rfl

/-- C2: in `updateService`, backend slots are written locals first, then
non-locals: `local` counts the ready local endpoints, `count` all ready
endpoints, slots `[0, local)` hold exactly the ready local endpoints in
order, slots `[local, count)` the ready non-local ones, and the frontend
value written for the service has `local-count ≤ count`. -/
theorem c2_updateService_locals_first (s : Syncer) (skey : svcKey) (sinfo : serviceInfo)
    (id : Nat) (eps : List Endpoint) :
    (updateService s skey sinfo id eps).2.2
        = (eps.filter (fun e => e.isLocal && e.isReady)).length ∧
    (updateService s skey sinfo id eps).2.1
        = (eps.filter (fun e => e.isLocal && e.isReady)).length
          + (eps.filter (fun e => !e.isLocal && e.isReady)).length ∧
    (updateService s skey sinfo id eps).2.2 ≤ (updateService s skey sinfo id eps).2.1 ∧
    ((List.range (eps.filter (fun e => e.isLocal && e.isReady)).length).map
        (fun j => kvLookup (updateService s skey sinfo id eps).1.desiredEps ⟨id, j⟩))
      = (eps.filter (fun e => e.isLocal && e.isReady)).map (fun e => some (epPair e)) ∧
    ((List.range (eps.filter (fun e => !e.isLocal && e.isReady)).length).map
        (fun j => kvLookup (updateService s skey sinfo id eps).1.desiredEps
          ⟨id, (eps.filter (fun e => e.isLocal && e.isReady)).length + j⟩))
      = (eps.filter (fun e => !e.isLocal && e.isReady)).map (fun e => some (epPair e)) ∧
    (∃ fv, kvLookup (updateService s skey sinfo id eps).1.desiredSvcs
        (getSvcNATKey s.ipFamily sinfo) = some fv ∧
      fv.id = id ∧ fv.count = (updateService s skey sinfo id eps).2.1 ∧
      fv.localCount = (updateService s skey sinfo id eps).2.2) := by
  have hpre := preallocSticky_frame s sinfo id
  obtain ⟨hL1, hL2, hL3, hL4, hL5⟩ :=
    updateSvcLoopLocals_spec id eps (preallocSticky s sinfo id) 0 0
  obtain ⟨hLf1, hLf2, _⟩ :=
    updateSvcLoopLocals_frame id eps (preallocSticky s sinfo id) 0 0
  obtain ⟨hN1, hN2, hN3, hN4⟩ :=
    updateSvcLoopNonLocals_spec id eps
      (updateSvcLoopLocals id (preallocSticky s sinfo id) 0 0 eps).1
      (updateSvcLoopLocals id (preallocSticky s sinfo id) 0 0 eps).2.1
  obtain ⟨hNf1, hNf2, _⟩ :=
    updateSvcLoopNonLocals_frame id eps
      (updateSvcLoopLocals id (preallocSticky s sinfo id) 0 0 eps).1
      (updateSvcLoopLocals id (preallocSticky s sinfo id) 0 0 eps).2.1
  have heq : updateService s skey sinfo id eps
      = ((if !(hasSvcKeyExtra skey .svcTypeNodePortRemote) then
            { writeSvc (updateSvcLoopNonLocals id
                (updateSvcLoopLocals id (preallocSticky s sinfo id) 0 0 eps).1
                (updateSvcLoopLocals id (preallocSticky s sinfo id) 0 0 eps).2.1 eps).1
              sinfo id
              (updateSvcLoopNonLocals id
                (updateSvcLoopLocals id (preallocSticky s sinfo id) 0 0 eps).1
                (updateSvcLoopLocals id (preallocSticky s sinfo id) 0 0 eps).2.1 eps).2.1
              (updateSvcLoopLocals id (preallocSticky s sinfo id) 0 0 eps).2.2.1
              (if sinfo.nodeLocalInternal then NATFlgInternalLocal else 0) with
              newEpsMap := kvSet (writeSvc (updateSvcLoopNonLocals id
                  (updateSvcLoopLocals id (preallocSticky s sinfo id) 0 0 eps).1
                  (updateSvcLoopLocals id (preallocSticky s sinfo id) 0 0 eps).2.1 eps).1
                sinfo id
                (updateSvcLoopNonLocals id
                  (updateSvcLoopLocals id (preallocSticky s sinfo id) 0 0 eps).1
                  (updateSvcLoopLocals id (preallocSticky s sinfo id) 0 0 eps).2.1 eps).2.1
                (updateSvcLoopLocals id (preallocSticky s sinfo id) 0 0 eps).2.2.1
                (if sinfo.nodeLocalInternal then NATFlgInternalLocal else 0)).newEpsMap
                skey.sname
                ((updateSvcLoopLocals id (preallocSticky s sinfo id) 0 0 eps).2.2.2
                  ++ (updateSvcLoopNonLocals id
                    (updateSvcLoopLocals id (preallocSticky s sinfo id) 0 0 eps).1
                    (updateSvcLoopLocals id (preallocSticky s sinfo id) 0 0 eps).2.1 eps).2.2) }
          else
            writeSvc (updateSvcLoopNonLocals id
                (updateSvcLoopLocals id (preallocSticky s sinfo id) 0 0 eps).1
                (updateSvcLoopLocals id (preallocSticky s sinfo id) 0 0 eps).2.1 eps).1
              sinfo id
              (updateSvcLoopNonLocals id
                (updateSvcLoopLocals id (preallocSticky s sinfo id) 0 0 eps).1
                (updateSvcLoopLocals id (preallocSticky s sinfo id) 0 0 eps).2.1 eps).2.1
              (updateSvcLoopLocals id (preallocSticky s sinfo id) 0 0 eps).2.2.1
              (if sinfo.nodeLocalInternal then NATFlgInternalLocal else 0)),
          (updateSvcLoopNonLocals id
            (updateSvcLoopLocals id (preallocSticky s sinfo id) 0 0 eps).1
            (updateSvcLoopLocals id (preallocSticky s sinfo id) 0 0 eps).2.1 eps).2.1,
          (updateSvcLoopLocals id (preallocSticky s sinfo id) 0 0 eps).2.2.1) := rfl
  have hip : (updateSvcLoopNonLocals id
      (updateSvcLoopLocals id (preallocSticky s sinfo id) 0 0 eps).1
      (updateSvcLoopLocals id (preallocSticky s sinfo id) 0 0 eps).2.1 eps).1.ipFamily
      = s.ipFamily := by
    rw [hNf1, hLf1, hpre.1]
  have hc1 : (updateService s skey sinfo id eps).2.2
      = (eps.filter (fun e => e.isLocal && e.isReady)).length := by
    rw [heq]; simpa using hL2
  have hc2 : (updateService s skey sinfo id eps).2.1
      = (eps.filter (fun e => e.isLocal && e.isReady)).length
        + (eps.filter (fun e => !e.isLocal && e.isReady)).length := by
    rw [heq]
    simp only []
    rw [hN1, hL1]
    omega
  have hdeseps : (updateService s skey sinfo id eps).1.desiredEps
      = (updateSvcLoopNonLocals id
          (updateSvcLoopLocals id (preallocSticky s sinfo id) 0 0 eps).1
          (updateSvcLoopLocals id (preallocSticky s sinfo id) 0 0 eps).2.1 eps).1.desiredEps := by
    rw [heq]
    simp only [ite_newEpsMap_desiredEps]
    exact (writeSvc_frame _ _ _ _ _ _).2.1
  have hdessvcs : (updateService s skey sinfo id eps).1.desiredSvcs
      = (writeSvc (updateSvcLoopNonLocals id
          (updateSvcLoopLocals id (preallocSticky s sinfo id) 0 0 eps).1
          (updateSvcLoopLocals id (preallocSticky s sinfo id) 0 0 eps).2.1 eps).1
        sinfo id
        (updateSvcLoopNonLocals id
          (updateSvcLoopLocals id (preallocSticky s sinfo id) 0 0 eps).1
          (updateSvcLoopLocals id (preallocSticky s sinfo id) 0 0 eps).2.1 eps).2.1
        (updateSvcLoopLocals id (preallocSticky s sinfo id) 0 0 eps).2.2.1
        (if sinfo.nodeLocalInternal then NATFlgInternalLocal else 0)).desiredSvcs := by
    rw [heq]
    simp only [ite_newEpsMap_desiredSvcs]
  refine ⟨hc1, hc2, by rw [hc1, hc2]; omega, ?_, ?_, ?_⟩
  · apply mapRange_eq
    intro j hj
    rw [hdeseps]
    have hstep := hN3 ⟨id, j⟩ (by simpa [hL1] using hj)
    rw [hstep]
    have h5 := hL5 j hj
    have hz : (0 : Nat) + j = j := by omega
    rw [hz] at h5
    rw [h5, List.getElem?_eq_getElem hj]
    rfl
  · apply mapRange_eq
    intro j hj
    rw [hdeseps]
    have h4 := hN4 j hj
    have hkey : (⟨id, (updateSvcLoopLocals id (preallocSticky s sinfo id) 0 0 eps).2.1 + j⟩
          : BackendKey)
        = ⟨id, (eps.filter (fun e => e.isLocal && e.isReady)).length + j⟩ := by
      rw [hL1, Nat.zero_add]
    rw [hkey] at h4
    rw [h4, List.getElem?_eq_getElem hj]
    rfl
  · refine ⟨NewNATValueWithFlags id
      (updateSvcLoopNonLocals id
        (updateSvcLoopLocals id (preallocSticky s sinfo id) 0 0 eps).1
        (updateSvcLoopLocals id (preallocSticky s sinfo id) 0 0 eps).2.1 eps).2.1
      (updateSvcLoopLocals id (preallocSticky s sinfo id) 0 0 eps).2.2.1
      (affTimeoOf sinfo)
      (if sinfo.excludeService then
        (if sinfo.nodeLocalInternal then NATFlgInternalLocal else 0) ||| NATFlgExclude
       else (if sinfo.nodeLocalInternal then NATFlgInternalLocal else 0)), ?_, rfl, ?_, ?_⟩
    · rw [hdessvcs, writeSvc_desiredSvcs, hip, kvLookup_set]
      simp
    · rw [heq]
      rfl
    · rw [heq]
      rfl


/-! ## Service id assignment (claim C3) -/

theorem ite_newEpsMap_newSvcMap (c : Prop) [Decidable c] (st : Syncer)
    (m : KVMap String (List Endpoint)) :
    (if c then { st with newEpsMap := m } else st).newSvcMap = st.newSvcMap := by
  split <;> rfl

theorem ite_newEpsMap_nextSvcID (c : Prop) [Decidable c] (st : Syncer)
    (m : KVMap String (List Endpoint)) :
    (if c then { st with newEpsMap := m } else st).nextSvcID = st.nextSvcID := by
  split <;> rfl

theorem updateService_outer_frame (s : Syncer) (skey : svcKey) (sinfo : serviceInfo)
    (id : Nat) (eps : List Endpoint) :
    (updateService s skey sinfo id eps).1.newSvcMap = s.newSvcMap ∧
    (updateService s skey sinfo id eps).1.nextSvcID = s.nextSvcID := by
  obtain ⟨_, _, _, hp4, _, _, hp7⟩ := preallocSticky_frame s sinfo id
  obtain ⟨_, _, hl3, _, _, hl6⟩ :=
    updateSvcLoopLocals_frame id eps (preallocSticky s sinfo id) 0 0
  obtain ⟨_, _, hn3, _, _, hn6⟩ :=
    updateSvcLoopNonLocals_frame id eps
      (updateSvcLoopLocals id (preallocSticky s sinfo id) 0 0 eps).1
      (updateSvcLoopLocals id (preallocSticky s sinfo id) 0 0 eps).2.1
  obtain ⟨_, _, hw3, _, _, hw6, _⟩ :=
    writeSvc_frame
      (updateSvcLoopNonLocals id
        (updateSvcLoopLocals id (preallocSticky s sinfo id) 0 0 eps).1
        (updateSvcLoopLocals id (preallocSticky s sinfo id) 0 0 eps).2.1 eps).1
      sinfo id
      (updateSvcLoopNonLocals id
        (updateSvcLoopLocals id (preallocSticky s sinfo id) 0 0 eps).1
        (updateSvcLoopLocals id (preallocSticky s sinfo id) 0 0 eps).2.1 eps).2.1
      (updateSvcLoopLocals id (preallocSticky s sinfo id) 0 0 eps).2.2.1
      (if sinfo.nodeLocalInternal then NATFlgInternalLocal else 0)
  constructor
  · simp only [updateService, ite_newEpsMap_newSvcMap]
    rw [hw3, hn3, hl3, hp4]
  · simp only [updateService, ite_newEpsMap_nextSvcID]
    rw [hw6, hn6, hl6, hp7]

/-- C3 (amended): when a service key is present in the previous service map,
`applySvc` assigns it the previous id exactly when `ServicePortEqual` holds
between the previous and the current service port, and otherwise issues the
fresh id `nextSvcID` and advances the 32-bit counter modulo `2^32` — all
provided every previously issued id is below the counter (the pre-wrap
regime); in that regime the fresh id is strictly greater than every
previously issued id.  The counter is a Go `uint32` and wraps, so past the
wrap freshness fails (see the counterexample). -/
theorem c3_applySvc_id_reuse_iff (s : Syncer) (skey : svcKey) (sinfo : serviceInfo)
    (eps : List Endpoint) (old : svcInfo) (issued : List Nat)
    (hprev : kvLookup s.prevSvcMap skey = some old)
    (hissued : ∀ j ∈ issued, j < s.nextSvcID)
    (holdmem : old.id ∈ issued) :
    ∃ info, kvLookup (applySvc s skey sinfo eps).newSvcMap skey = some info ∧
      ((info.id = old.id) ↔ ServicePortEqual old.svc sinfo = true) ∧
      (ServicePortEqual old.svc sinfo = false →
        info.id = s.nextSvcID ∧ (∀ j ∈ issued, j < info.id) ∧
        (applySvc s skey sinfo eps).nextSvcID = (info.id + 1) % 4294967296) := by
  cases hb : ServicePortEqual old.svc sinfo with
  | true =>
    have happ : applySvc s skey sinfo eps
        = { (updateService s skey sinfo old.id eps).1 with
            newSvcMap := kvSet (updateService s skey sinfo old.id eps).1.newSvcMap skey
              ⟨old.id, (updateService s skey sinfo old.id eps).2.1,
                (updateService s skey sinfo old.id eps).2.2, sinfo⟩ } := by
      simp only [applySvc, hprev, hb, if_true]
    refine ⟨⟨old.id, (updateService s skey sinfo old.id eps).2.1,
      (updateService s skey sinfo old.id eps).2.2, sinfo⟩, ?_, by simp, by simp⟩
    rw [happ]
    show kvLookup (kvSet _ skey _) skey = _
    rw [kvLookup_set]
    simp
  | false =>
    have hne : old.id ≠ s.nextSvcID := by
      have := hissued old.id holdmem
      omega
    have happ : applySvc s skey sinfo eps
        = { (updateService { s with nextSvcID := (s.nextSvcID + 1) % 4294967296 } skey sinfo s.nextSvcID eps).1 with
            newSvcMap := kvSet
              (updateService { s with nextSvcID := (s.nextSvcID + 1) % 4294967296 } skey sinfo s.nextSvcID eps).1.newSvcMap
              skey
              ⟨s.nextSvcID,
                (updateService { s with nextSvcID := (s.nextSvcID + 1) % 4294967296 } skey sinfo s.nextSvcID eps).2.1,
                (updateService { s with nextSvcID := (s.nextSvcID + 1) % 4294967296 } skey sinfo s.nextSvcID eps).2.2,
                sinfo⟩ } := by
      simp only [applySvc, hprev, hb, newSvcID]
      rfl
    refine ⟨⟨s.nextSvcID,
      (updateService { s with nextSvcID := (s.nextSvcID + 1) % 4294967296 } skey sinfo s.nextSvcID eps).2.1,
      (updateService { s with nextSvcID := (s.nextSvcID + 1) % 4294967296 } skey sinfo s.nextSvcID eps).2.2,
      sinfo⟩, ?_, ?_, ?_⟩
    · rw [happ]
      show kvLookup (kvSet _ skey _) skey = _
      rw [kvLookup_set]
      simp
    · constructor
      · intro h
        exact absurd h.symm hne
      · intro h
        exact absurd h (by decide)
    · intro _
      refine ⟨rfl, fun j hj => hissued j hj, ?_⟩
      rw [happ]
      show (updateService { s with nextSvcID := (s.nextSvcID + 1) % 4294967296 } skey sinfo s.nextSvcID eps).1.nextSvcID = _
      rw [(updateService_outer_frame _ _ _ _ _).2]

/-- A small concrete service used by witnesses. -/
def sampleSvc : serviceInfo :=
  ⟨1, 80, .TCP, 0, .None, 0, [], [], [], 0, false, false, "", false, false⟩

/-- A second service differing from `sampleSvc` in its port. -/
def sampleSvc81 : serviceInfo :=
  ⟨1, 81, .TCP, 0, .None, 0, [], [], [], 0, false, false, "", false, false⟩

/-- A small concrete syncer state used by witnesses: one previous service
with id 2, next id 3. -/
def sampleSyncer : Syncer :=
  ⟨4, [], 3, [], [], [], [], [(⟨"ns1/svc1", ""⟩, ⟨2, 1, 0, sampleSvc⟩)], [], [], []⟩

theorem c3_applySvc_id_reuse_iff_witness :
    ∃ info, kvLookup (applySvc sampleSyncer ⟨"ns1/svc1", ""⟩ sampleSvc81 []).newSvcMap
        ⟨"ns1/svc1", ""⟩ = some info ∧
      ((info.id = (2 : Nat)) ↔ ServicePortEqual sampleSvc sampleSvc81 = true) ∧
      (ServicePortEqual sampleSvc sampleSvc81 = false →
        info.id = sampleSyncer.nextSvcID ∧ (∀ j ∈ [2], j < info.id) ∧
        (applySvc sampleSyncer ⟨"ns1/svc1", ""⟩ sampleSvc81 []).nextSvcID
          = (info.id + 1) % 4294967296) :=
  c3_applySvc_id_reuse_iff sampleSyncer ⟨"ns1/svc1", ""⟩ sampleSvc81 []
    ⟨2, 1, 0, sampleSvc⟩ [2] (by decide) (by decide) (by decide)

/-! ## Load-balancer source-range keys (claim C4) -/

/-- Whether `getSvcNATKeyLBSrcRange` keeps a source range for the syncer's
address family: IPv6 ranges only in the IPv6 syncer, IPv4 ranges only in a
non-IPv6 syncer. -/
def rangeMatchesFamily (family : Nat) (r : CIDR) : Bool :=
  if !r.v4 then family == 6 else family != 6

theorem lbSrcRangeKeys_eq (family ipaddr port proto : Nat) (rs : List CIDR) :
    lbSrcRangeKeys family ipaddr port proto rs
      = (rs.filter (rangeMatchesFamily family)).map
          (newFrontendKeySrc family ipaddr port proto) := by
  induction rs with
  | nil => rfl
  | cons r0 rest ih =>
    by_cases hv : r0.v4 <;> by_cases hf : family == 6 <;>
      simp [lbSrcRangeKeys, rangeMatchesFamily, hv, hf, List.filter_cons, ih, bne]

theorem mem_lbSrcRangeKeys (family ipaddr port proto : Nat) (rs : List CIDR) (k : FrontendKey) :
    k ∈ lbSrcRangeKeys family ipaddr port proto rs
      ↔ ∃ r ∈ rs, rangeMatchesFamily family r = true
          ∧ k = newFrontendKeySrc family ipaddr port proto r := by
  rw [lbSrcRangeKeys_eq]
  constructor
  · intro h
    obtain ⟨r, hr, hk⟩ := List.mem_map.mp h
    obtain ⟨hr1, hr2⟩ := List.mem_filter.mp hr
    exact ⟨r, hr1, hr2, hk.symm⟩
  · rintro ⟨r, hr, hm, hk⟩
    exact List.mem_map.mpr ⟨r, List.mem_filter.mpr ⟨hr, hm⟩, hk.symm⟩

theorem kvLookup_foldl_kvSet_const {K V : Type} [DecidableEq K] (ks : List K) (val : V) :
    ∀ (m : KVMap K V) (k : K),
      kvLookup (ks.foldl (fun m k => kvSet m k val) m) k
        = if k ∈ ks then some val else kvLookup m k := by
  induction ks with
  | nil => intro m k; simp
  | cons k0 rest ih =>
    intro m k
    rw [List.foldl_cons, ih]
    by_cases hk : k ∈ rest
    · simp [hk]
    · by_cases he : k = k0
      · subst he
        simp [hk, kvLookup_set]
      · simp [hk, he, kvLookup_set]

/-- C4 (amended): with a non-empty source-range set, the pass sets one
desired frontend per family-matching source range and the zero-src-CIDR
blackhole frontend with `count = BlackHole`; a per-range key carries the
real `(id, count, local-count)` value unless the range is itself the zero
CIDR, in which case its key coincides with the blackhole key and ends up
holding the BlackHole value; nothing else is touched, and with no source
ranges nothing at all is written. -/
theorem c4_writeLBSrcRange_characterization (s : Syncer) (svc : serviceInfo)
    (svcID cnt localCnt flags : Nat) :
    (svc.loadBalancerSourceRanges = [] →
      writeLBSrcRangeSvcNATKeys s svc svcID cnt localCnt flags = s) ∧
    (svc.loadBalancerSourceRanges ≠ [] →
      kvLookup (writeLBSrcRangeSvcNATKeys s svc svcID cnt localCnt flags).desiredSvcs
          (getSvcNATKey s.ipFamily svc) = some (NewNATValue svcID BlackHoleCount 0 0) ∧
      (∀ r ∈ svc.loadBalancerSourceRanges, rangeMatchesFamily s.ipFamily r = true →
        kvLookup (writeLBSrcRangeSvcNATKeys s svc svcID cnt localCnt flags).desiredSvcs
            (newFrontendKeySrc s.ipFamily svc.clusterIP svc.port (ProtoV1ToInt svc.protocol) r)
          = some (if newFrontendKeySrc s.ipFamily svc.clusterIP svc.port
                      (ProtoV1ToInt svc.protocol) r = getSvcNATKey s.ipFamily svc
                  then NewNATValue svcID BlackHoleCount 0 0
                  else NewNATValueWithFlags svcID cnt localCnt (affTimeoOf svc) flags)) ∧
      (∀ k : FrontendKey,
        kvLookup (writeLBSrcRangeSvcNATKeys s svc svcID cnt localCnt flags).desiredSvcs k
          ≠ kvLookup s.desiredSvcs k →
        k = getSvcNATKey s.ipFamily svc ∨ k ∈ getSvcNATKeyLBSrcRange s.ipFamily svc)) := by
  constructor
  · intro h
    simp [writeLBSrcRangeSvcNATKeys, h]
  · intro h
    have hne : svc.loadBalancerSourceRanges.isEmpty = false := by
      rcases hx : svc.loadBalancerSourceRanges with _ | ⟨a, l⟩
      · exact absurd hx h
      · rfl
    have heq : writeLBSrcRangeSvcNATKeys s svc svcID cnt localCnt flags
        = { s with desiredSvcs := kvSet (List.foldl (fun m k => kvSet m k (NewNATValueWithFlags svcID cnt localCnt (affTimeoOf svc) flags)) s.desiredSvcs (getSvcNATKeyLBSrcRange s.ipFamily svc)) (getSvcNATKey s.ipFamily svc) (NewNATValue svcID BlackHoleCount 0 0) } := by
      simp only [writeLBSrcRangeSvcNATKeys, affTimeoOf, hne, Bool.false_eq_true, if_false]
    refine ⟨?_, ?_, ?_⟩
    · rw [heq]
      show kvLookup (kvSet _ _ _) _ = _
      rw [kvLookup_set]
      simp
    · intro r hr hm
      rw [heq]
      show kvLookup (kvSet _ _ _) _ = _
      rw [kvLookup_set]
      by_cases hpk : newFrontendKeySrc s.ipFamily svc.clusterIP svc.port
          (ProtoV1ToInt svc.protocol) r = getSvcNATKey s.ipFamily svc
      · simp [hpk]
      · rw [if_neg hpk, if_neg hpk, kvLookup_foldl_kvSet_const, if_pos]
        exact (mem_lbSrcRangeKeys s.ipFamily svc.clusterIP svc.port
          (ProtoV1ToInt svc.protocol) svc.loadBalancerSourceRanges _).mpr ⟨r, hr, hm, rfl⟩
    · intro k hk
      by_cases h1 : k = getSvcNATKey s.ipFamily svc
      · exact Or.inl h1
      · right
        by_contra h2
        apply hk
        rw [heq]
        show kvLookup (kvSet _ _ _) _ = _
        rw [kvLookup_set, if_neg h1, kvLookup_foldl_kvSet_const, if_neg h2]

/-- A syncer state with empty maps, IPv4 family. -/
def emptySyncer4 : Syncer := ⟨4, [], 0, [], [], [], [], [], [], [], []⟩

/-- A service whose single load-balancer source range is the zero CIDR
0.0.0.0/0. -/
def svcLB0 : serviceInfo :=
  ⟨7, 80, .TCP, 0, .None, 0, [], [zeroCIDR4], [9], 0, false, false, "", false, false⟩

/-- C4 counterexample: with the (family-matching) source range 0.0.0.0/0,
the per-range frontend key coincides with the blackhole key, so it carries
the BlackHole count instead of the real value `(id, count=1, local)` that
the claim promises for every source-range key. -/
theorem c4_counterexample :
    svcLB0.loadBalancerSourceRanges = [zeroCIDR4] ∧
    rangeMatchesFamily 4 zeroCIDR4 = true ∧
    kvLookup (writeLBSrcRangeSvcNATKeys emptySyncer4 svcLB0 9 1 0 0).desiredSvcs
        (newFrontendKeySrc 4 7 80 6 zeroCIDR4)
      = some (NewNATValue 9 BlackHoleCount 0 0) ∧
    (NewNATValue 9 BlackHoleCount 0 0).count ≠ 1 := by decide

/-! ## Affinity sweeper (claim C7)

The affinity key/value wire records are opaque to the syncer except via the
injected codecs; modelled from the spec as a frontend-affinity projection
plus an opaque client discriminator, and a backend plus timestamp. -/

/-- Modelled from the spec: an affinity-map key as seen through
`affinityKeyFromBytes` — its `FrontendAffinityKey()` projection plus an
opaque client part. -/
structure AffinityKey where
  fendAff : FEAffKey
  client : Nat
  deriving DecidableEq, Repr

/-- Modelled from the spec: an affinity-map value as seen through
`affinityValueFromBytes` — its `Backend()` projection and its
`Timestamp()` (nanoseconds). -/
structure AffinityValue where
  backend : BackendValue
  ts : Int
  deriving DecidableEq, Repr

/-- The per-record decision of `cleanupSticky`: delete when the
frontend-affinity projection is unknown, else when the backend is unknown
for that id, else when the record has outlived the service's affinity
timeout. -/
def stickyDelete (now : Int) (stickySvcs : KVMap FEAffKey stickyFrontend)
    (stickyEps : KVMap Nat (List BackendValue)) (k : AffinityKey) (v : AffinityValue) : Bool :=
  match kvLookup stickySvcs k.fendAff with
  | none => true
  | some fend =>
    if !(((kvLookup stickyEps fend.id).getD []).contains v.backend) then true
    else if now - v.ts > fend.timeo then true
    else false

/-- `cleanupSticky`: iterate the affinity table deleting stale records; an
iterator failure (modelled as an input, since the map primitive is
external) is wrapped in the `NAT affinity map iterator failed` error. -/
def cleanupSticky (now : Int) (stickySvcs : KVMap FEAffKey stickyFrontend)
    (stickyEps : KVMap Nat (List BackendValue)) (aff : List (AffinityKey × AffinityValue))
    (iterErr : Option String) : Except String (List (AffinityKey × AffinityValue)) :=
  match iterErr with
  | some e => Except.error ("NAT affinity map iterator failed: " ++ e)
  | none => Except.ok (aff.filter (fun kv => !(stickyDelete now stickySvcs stickyEps kv.1 kv.2)))

/-- The tail of `Syncer.Apply`: an `apply` error is returned as is;
otherwise Apply returns the result of `cleanupSticky`. -/
def applyThenCleanup (applyErr : Option String) (now : Int)
    (stickySvcs : KVMap FEAffKey stickyFrontend) (stickyEps : KVMap Nat (List BackendValue))
    (aff : List (AffinityKey × AffinityValue)) (iterErr : Option String) :
    Except String (List (AffinityKey × AffinityValue)) :=
  match applyErr with
  | some e => Except.error e
  | none => cleanupSticky now stickySvcs stickyEps aff iterErr

/-- C7: the post-apply affinity sweep deletes a record exactly when its
frontend-affinity projection is not among this pass's sticky services, or
its backend value is not among the sticky endpoints recorded for that id,
or `now − timestamp` exceeds the service's affinity timeout; every other
record is kept, and an iterator failure is wrapped and returned from
Apply. -/
theorem c7_cleanupSticky_rule (now : Int) (stickySvcs : KVMap FEAffKey stickyFrontend)
    (stickyEps : KVMap Nat (List BackendValue)) (aff : List (AffinityKey × AffinityValue)) :
    (∀ kv : AffinityKey × AffinityValue,
      stickyDelete now stickySvcs stickyEps kv.1 kv.2 = true ↔
        (kvLookup stickySvcs kv.1.fendAff = none ∨
         (∃ fend, kvLookup stickySvcs kv.1.fendAff = some fend ∧
            ((kvLookup stickyEps fend.id).getD []).contains kv.2.backend = false) ∨
         (∃ fend, kvLookup stickySvcs kv.1.fendAff = some fend ∧
            now - kv.2.ts > fend.timeo))) ∧
    cleanupSticky now stickySvcs stickyEps aff none
      = Except.ok (aff.filter (fun kv => !(stickyDelete now stickySvcs stickyEps kv.1 kv.2))) ∧
    (∀ e, cleanupSticky now stickySvcs stickyEps aff (some e)
      = Except.error ("NAT affinity map iterator failed: " ++ e)) ∧
    (∀ e, applyThenCleanup none now stickySvcs stickyEps aff (some e)
      = Except.error ("NAT affinity map iterator failed: " ++ e)) ∧
    (∀ e2, applyThenCleanup (some e2) now stickySvcs stickyEps aff none
      = Except.error e2) := by
  refine ⟨?_, rfl, fun e => rfl, fun e => rfl, fun e2 => rfl⟩
  intro kv
  cases hl : kvLookup stickySvcs kv.1.fendAff with
  | none => simp [stickyDelete, hl]
  | some fend =>
    by_cases hb : (((kvLookup stickyEps fend.id).getD []).contains kv.2.backend) = true
    · have hb2 : kv.2.backend ∈ (kvLookup stickyEps fend.id).getD [] := by simpa using hb
      by_cases ht : now - kv.2.ts > fend.timeo
      · have hd : stickyDelete now stickySvcs stickyEps kv.1 kv.2 = true := by
          simp [stickyDelete, hl, hb, hb2, ht]
        rw [hd]
        exact ⟨fun _ => Or.inr (Or.inr ⟨fend, rfl, ht⟩), fun _ => rfl⟩
      · have hd : stickyDelete now stickySvcs stickyEps kv.1 kv.2 = false := by
          simp [stickyDelete, hl, hb, hb2, ht]
        rw [hd]
        constructor
        · intro h
          cases h
        · rintro (h | ⟨fend2, he, hc⟩ | ⟨fend2, he, ht2⟩)
          · exact Option.noConfusion h
          · have he2 := Option.some.inj he
            subst he2
            exact Bool.noConfusion (hb.symm.trans hc)
          · have he2 := Option.some.inj he
            subst he2
            exact absurd ht2 ht
    · have hb3 : (((kvLookup stickyEps fend.id).getD []).contains kv.2.backend) = false :=
        Bool.eq_false_iff.mpr hb
      have hb4 : kv.2.backend ∉ (kvLookup stickyEps fend.id).getD [] := by
        simpa using hb3
      have hd : stickyDelete now stickySvcs stickyEps kv.1 kv.2 = true := by
        simp [stickyDelete, hl, hb3, hb4]
      rw [hd]
      exact ⟨fun _ => Or.inr (Or.inl ⟨fend, rfl, hb3⟩), fun _ => rfl⟩

/-! ## Cold-start classification (claims C8 and C5) -/

/-- The `matchLBSrcIP` closure of `matchBpfSvc`: accept a zero src-CIDR;
reject when the service has no source ranges; otherwise accept exactly when
some IPv4 source range (ranges that are not `To4()`-convertible are always
skipped) equals the key's src-CIDR. -/
def matchLBSrcIP (bpfSrcCIDR : CIDR) (ranges : List CIDR) : Bool :=
  if isZeroCIDR bpfSrcCIDR then true
  else if ranges.isEmpty then false
  else ranges.any (fun srcip => srcip.v4 && srcip == bpfSrcCIDR)

/-- The `matchNP` closure of `matchBpfSvc`: match the node-port number and
any of the syncer's node-port IPs. -/
def matchNP (nodePortIPs : List Nat) (bpfSvc : FrontendKey) (sname : String)
    (svc : serviceInfo) : Option svcKey :=
  if bpfSvc.port == svc.nodePort then
    match nodePortIPs.find? (fun nip => bpfSvc.addr == nip) with
    | some nip => some ⟨sname, getSvcKeyExtra .svcTypeNodePort nip⟩
    | none => none
  else none

/-- `matchBpfSvc`: classify a dataplane frontend key against a candidate
service, in source order — node-port when the port differs, then primary
(cluster address and zero src-CIDR), then external IPs, then load-balancer
VIPs (both with the source-range acceptance test), then node-port again. -/
def matchBpfSvc (nodePortIPs : List Nat) (bpfSvc : FrontendKey) (sname : String)
    (svc : serviceInfo) : Option svcKey :=
  if bpfSvc.port != svc.port then
    matchNP nodePortIPs bpfSvc sname svc
  else if bpfSvc.addr == svc.clusterIP && isZeroCIDR bpfSvc.srcCIDR then
    some ⟨sname, ""⟩
  else
    match svc.externalIPs.find? (fun eip =>
        bpfSvc.addr == eip && matchLBSrcIP bpfSvc.srcCIDR svc.loadBalancerSourceRanges) with
    | some eip => some ⟨sname, getSvcKeyExtra .svcTypeExternalIP eip⟩
    | none =>
      match svc.loadBalancerVIPs.find? (fun lbip =>
          bpfSvc.addr == lbip && matchLBSrcIP bpfSvc.srcCIDR svc.loadBalancerSourceRanges) with
      | some lbip => some ⟨sname, getSvcKeyExtra .svcTypeLoadBalancer lbip⟩
      | none => matchNP nodePortIPs bpfSvc sname svc

/-- C8 (amended): the acceptance test accepts a zero src-CIDR and otherwise
accepts exactly when the src-CIDR equals one of the service's IPv4 source
ranges — non-IPv4 ranges are always skipped, so in the IPv6 syncer a
non-zero src-CIDR is never accepted; with no source ranges every non-zero
src-CIDR is rejected. -/
theorem c8_matchLBSrcIP_characterization (bpfSrcCIDR : CIDR) (ranges : List CIDR) :
    matchLBSrcIP bpfSrcCIDR ranges = true ↔
      (isZeroCIDR bpfSrcCIDR = true
        ∨ ∃ r ∈ ranges, r.v4 = true ∧ r = bpfSrcCIDR) := by
  unfold matchLBSrcIP
  by_cases hz : isZeroCIDR bpfSrcCIDR = true
  · simp [hz]
  · rcases ranges with _ | ⟨a, l⟩
    · simp [hz]
    · simp only [hz, if_false, List.isEmpty_cons, Bool.false_eq_true]
      rw [List.any_eq_true]
      constructor
      · rintro ⟨r, hr, hp⟩
        obtain ⟨h1, h2⟩ := Bool.and_eq_true .. |>.mp hp
        exact Or.inr ⟨r, hr, h1, beq_iff_eq.mp h2⟩
      · rintro (h | ⟨r, hr, h1, h2⟩)
        · exact h.elim
        · exact ⟨r, hr, by rw [Bool.and_eq_true]; exact ⟨h1, beq_iff_eq.mpr h2⟩⟩

/-- C8 counterexample: in the IPv6 syncer, a frontend whose src-CIDR equals
one of the service's IPv6 source ranges is still rejected by the acceptance
test (the test only ever compares IPv4 ranges), although the claim says it
is accepted for both families. -/
theorem c8_counterexample :
    isZeroCIDR ⟨false, 5, 64⟩ = false ∧
    (⟨false, 5, 64⟩ : CIDR) ∈ [(⟨false, 5, 64⟩ : CIDR)] ∧
    matchLBSrcIP ⟨false, 5, 64⟩ [⟨false, 5, 64⟩] = false := by decide

/-! ## Cold-start reconstruction (claim C5) -/

/-- The desired-state surface `DPSyncerState`. -/
structure DPSyncerState where
  svcMap : KVMap String serviceInfo
  epsMap : KVMap String (List Endpoint)
  nodeZone : String
  deriving Repr

/-- `svcMapToIPPortProtoMap`: index every frontend key a service could have
(cluster address, node-port on the cluster address and on every node-port
IP, external IPs) to its service. -/
def svcMapToIPPortProtoMap (family : Nat) (nodePortIPs : List Nat)
    (svcs : KVMap String serviceInfo) : KVMap FrontendKey (String × serviceInfo) :=
  svcs.foldl (fun ref kv =>
    let sname := kv.1
    let svc := kv.2
    let proto := ProtoV1ToInt svc.protocol
    let ref := kvSet ref (newFrontendKey family svc.clusterIP svc.port proto) (sname, svc)
    let ref := if svc.nodePort != 0 then
        let ref := kvSet ref (newFrontendKey family svc.clusterIP svc.nodePort proto) (sname, svc)
        nodePortIPs.foldl (fun ref npIP =>
          kvSet ref (newFrontendKey family npIP svc.nodePort proto) (sname, svc)) ref
      else ref
    svc.externalIPs.foldl (fun ref extIP =>
      kvSet ref (newFrontendKey family extIP svc.port proto) (sname, svc)) ref) []

/-- The backend-slot reading loop of `startupBuildPrev`: read slots
`i, i+1, …` (the second argument is the remaining count), collecting
endpoints until the first missing slot, which sets the inconsistent flag
and stops. -/
def readSlotsFrom (dpEps : KVMap BackendKey BackendValue) (id : Nat) :
    Nat → Nat → List (Nat × Nat) × Bool
  | _, 0 => ([], false)
  | i, fuel + 1 =>
    match kvLookup dpEps ⟨id, i⟩ with
    | none => ([], true)
    | some bv =>
      let r := readSlotsFrom dpEps id (i + 1) fuel
      ((bv.addr, bv.port) :: r.1, r.2)

/-- The state built by `startupBuildPrev`. -/
structure BuildPrevSt where
  prevSvcMap : KVMap svcKey svcInfo
  prevEpsMap : KVMap String (List (Nat × Nat))
  nextSvcID : Nat
  inconsistent : Bool
  deriving Repr

/-- One iteration of the `startupBuildPrev` dataplane walk: cross-reference
the frontend key, classify it with `matchBpfSvc`, record the previous
service info (bumping the id counter), and for a primary entry read its
`count` backend slots (the partial prefix is recorded even when a slot is
missing).  The service stored is the index entry's service, which is
`state.SvcMap[sname]` by construction of the index. -/
def startupBuildPrevStep (nodePortIPs : List Nat)
    (svcRef : KVMap FrontendKey (String × serviceInfo))
    (dpEps : KVMap BackendKey BackendValue) (st : BuildPrevSt)
    (entry : FrontendKey × FrontendValue) : BuildPrevSt :=
  match kvLookup svcRef entry.1 with
  | none => st
  | some xref =>
    match matchBpfSvc nodePortIPs entry.1 xref.1 xref.2 with
    | none => st
    | some skey =>
      let id := entry.2.id
      let count := entry.2.count
      let st1 := { st with prevSvcMap := kvSet st.prevSvcMap skey ⟨id, count, entry.2.localCount, xref.2⟩ }
      let st2 := if id ≥ st1.nextSvcID then { st1 with nextSvcID := (id + 1) % 4294967296 } else st1
      if skey.extra != "" then st2
      else
        let r := readSlotsFrom dpEps id 0 count
        let st3 := if count > 0 then { st2 with prevEpsMap := kvSet st2.prevEpsMap skey.sname r.1 } else st2
        { st3 with inconsistent := st3.inconsistent || r.2 }

/-- `startupBuildPrev`: walk the dataplane frontend cache against the index
built from the desired state. -/
def startupBuildPrev (s : Syncer) (state : DPSyncerState)
    (dpSvcs : KVMap FrontendKey FrontendValue) (dpEps : KVMap BackendKey BackendValue) :
    BuildPrevSt :=
  let svcRef := svcMapToIPPortProtoMap s.ipFamily s.nodePortIPs state.svcMap
  dpSvcs.foldl (startupBuildPrevStep s.nodePortIPs svcRef dpEps)
    ⟨s.prevSvcMap, s.prevEpsMap, s.nextSvcID, false⟩

/-- The error `startupBuildPrev` returns when the walk found an
inconsistency. -/
def startupBuildPrevErr (s : Syncer) (state : DPSyncerState)
    (dpSvcs : KVMap FrontendKey FrontendValue) (dpEps : KVMap BackendKey BackendValue) :
    Option String :=
  if (startupBuildPrev s state dpSvcs dpEps).inconsistent then
    some "found inconsistencies in existing BPF maps, will rewrite maps from scratch"
  else none

/-- `startupSync`: build the previous maps from the dataplane; an
inconsistency error from `startupBuildPrev` is only logged — the partially
built previous maps are installed either way. -/
def startupSync (s : Syncer) (state : DPSyncerState)
    (dpSvcs : KVMap FrontendKey FrontendValue) (dpEps : KVMap BackendKey BackendValue) :
    Syncer :=
  let r := startupBuildPrev s state dpSvcs dpEps
  { s with prevSvcMap := r.prevSvcMap, prevEpsMap := r.prevEpsMap, nextSvcID := r.nextSvcID }

/-- C5 (amended): a missing backend slot makes `startupBuildPrev` flag the
kernel inconsistent and return its error, but `startupSync` swallows that
error: the previous service and endpoints maps are *not* abandoned — the
partial reconstruction (including the entries matched so far) is installed
unchanged, whether or not the walk was inconsistent. -/
theorem c5_startupSync_keeps_partial_prev (s : Syncer) (state : DPSyncerState)
    (dpSvcs : KVMap FrontendKey FrontendValue) (dpEps : KVMap BackendKey BackendValue) :
    (startupSync s state dpSvcs dpEps).prevSvcMap
      = (startupBuildPrev s state dpSvcs dpEps).prevSvcMap ∧
    (startupSync s state dpSvcs dpEps).prevEpsMap
      = (startupBuildPrev s state dpSvcs dpEps).prevEpsMap ∧
    (startupSync s state dpSvcs dpEps).nextSvcID
      = (startupBuildPrev s state dpSvcs dpEps).nextSvcID ∧
    ((startupBuildPrev s state dpSvcs dpEps).inconsistent = true →
      startupBuildPrevErr s state dpSvcs dpEps
        = some "found inconsistencies in existing BPF maps, will rewrite maps from scratch") := by
  refine ⟨rfl, rfl, rfl, fun h => ?_⟩
  simp [startupBuildPrevErr, h]

/-- The desired state for the C5 counterexample: one service. -/
def c5state : DPSyncerState := ⟨[("s", sampleSvc)], [], ""⟩

/-- The dataplane frontends for the C5 counterexample: the primary entry
with id 7 and count 2. -/
def c5dpSvcs : KVMap FrontendKey FrontendValue := [(⟨1, 80, 6, zeroCIDR4⟩, ⟨7, 2, 0, 0, 0⟩)]

/-- The dataplane backends for the C5 counterexample: slot (7, 0) present,
slot (7, 1) missing. -/
def c5dpEps : KVMap BackendKey BackendValue := [(⟨7, 0⟩, ⟨10, 8080⟩)]

/-- C5 counterexample: with backend slot (7, 1) missing the walk is
declared inconsistent, yet after `startupSync` the previous service map
still holds the matched primary and the previous endpoints map holds the
partial slot prefix — they are not abandoned (empty) as the claim states. -/
theorem c5_counterexample :
    (startupBuildPrev emptySyncer4 c5state c5dpSvcs c5dpEps).inconsistent = true ∧
    (startupSync emptySyncer4 c5state c5dpSvcs c5dpEps).prevSvcMap
      = [(⟨"s", ""⟩, ⟨7, 2, 0, sampleSvc⟩)] ∧
    (startupSync emptySyncer4 c5state c5dpSvcs c5dpEps).prevSvcMap ≠ [] ∧
    (startupSync emptySyncer4 c5state c5dpSvcs c5dpEps).prevEpsMap = [("s", [(10, 8080)])] ∧
    (startupSync emptySyncer4 c5state c5dpSvcs c5dpEps).nextSvcID = 8 := by decide

/-- The dataplane frontends for the C3 counterexample: the primary entry of
`sampleSvc` carrying the kernel id `2^32 - 1` with no backends. -/
def c3dpSvcs : KVMap FrontendKey FrontendValue :=
  [(⟨1, 80, 6, zeroCIDR4⟩, ⟨4294967295, 0, 0, 0, 0⟩)]

/-- The syncer state after cold start against `c3dpSvcs`: the 32-bit id
counter has wrapped to 0 while id `2^32 - 1` sits in the previous map. -/
def c3wrapped : Syncer := startupSync emptySyncer4 ⟨[("s", sampleSvc)], [], ""⟩ c3dpSvcs []

/-- C3 counterexample: cold-start reconstruction of a kernel frontend with
id `2^32 - 1` sets the uint32 id counter to `(2^32 - 1) + 1 = 0` (wrap);
the service's ports then change, so `applySvc` issues the fresh id 0,
which is not strictly greater than the previously issued id `2^32 - 1` —
refuting the claim's unconditional freshness of new ids. -/
theorem c3_counterexample :
    kvLookup c3wrapped.prevSvcMap ⟨"s", ""⟩ = some ⟨4294967295, 0, 0, sampleSvc⟩ ∧
    c3wrapped.nextSvcID = 0 ∧
    ServicePortEqual sampleSvc sampleSvc81 = false ∧
    kvLookup (applySvc c3wrapped ⟨"s", ""⟩ sampleSvc81 []).newSvcMap ⟨"s", ""⟩
      = some ⟨0, 0, 0, sampleSvc81⟩ ∧
    ¬ (4294967295 : Nat) < 0 := by decide

/-! ## Conntrack query surface (claims C6 and C10) -/

/-- The `ipPort` key of the active-endpoints sets. -/
structure ipPort where
  ip : Nat
  port : Nat
  deriving DecidableEq, Repr

/-- The `ipPortProto` key of the active-services map. -/
structure ipPortProto where
  ip : Nat
  port : Nat
  proto : Nat
  deriving DecidableEq, Repr

/-- `servicePortToIPPortProto`. -/
def servicePortToIPPortProto (sp : serviceInfo) : ipPortProto :=
  ⟨sp.clusterIP, sp.port, ProtoV1ToInt sp.protocol⟩

/-- The two read-only views built by `ConntrackScanStart`.  The Go
endpoint sets are modelled as the lists of their members in insertion
order (only membership is observed). -/
structure ActiveMaps where
  activeSvcsMap : KVMap ipPortProto Nat
  activeEpsMap : KVMap Nat (List ipPort)
  deriving Repr

/-- The endpoint set `addActiveEps` builds: every endpooint of the list
except a terminating one of a UDP service with reap-terminating-UDP set. -/
def activeEpsOf (svc : serviceInfo) (eps : List Endpoint) : List ipPort :=
  (eps.filter (fun ep =>
    !(ep.isTerminating && (svc.protocol == Protocol.UDP) && svc.reapTerminatingUDP))).map
    (fun ep => ⟨ep.addr, ep.port⟩)

/-- `addActiveEps`: record the service under its `(addr, port, proto)` key,
and (when the endpoint list is non-empty) record the filtered endpoint set
under the service id. -/
def addActiveEps (am : ActiveMaps) (id : Nat) (svc : serviceInfo) (eps : List Endpoint) :
    ActiveMaps :=
  let am1 := { am with activeSvcsMap := kvSet am.activeSvcsMap (servicePortToIPPortProto svc) id }
  if eps.isEmpty then am1
  else { am1 with activeEpsMap := kvSet am1.activeEpsMap id (activeEpsOf svc eps) }

/-- One entry of the `ConntrackScanStart` walk over `newSvcMap`: skip
`count = 0` entries; a derived entry contributes no endpoints; a
non-derived entry contributes `newEpsMap[sname]`. -/
def conntrackScanStep (newEpsMap : KVMap String (List Endpoint)) (am : ActiveMaps)
    (kv : svcKey × svcInfo) : ActiveMaps :=
  if kv.2.count == 0 then am
  else if isSvcKeyDerived kv.1 then addActiveEps am kv.2.id kv.2.svc []
  else addActiveEps am kv.2.id kv.2.svc ((kvLookup newEpsMap kv.1.sname).getD [])

/-- `ConntrackScanStart`: build the active views from the current sync. -/
def ConntrackScanStart (newSvcMap : KVMap svcKey svcInfo)
    (newEpsMap : KVMap String (List Endpoint)) : ActiveMaps :=
  newSvcMap.foldl (conntrackScanStep newEpsMap) ⟨[], []⟩

/-- `conntrackGetSvcID`: direct lookup, then the sentinel node-port IP of
the current family as a fallback. -/
def conntrackGetSvcID (family : Nat) (activeSvcsMap : KVMap ipPortProto Nat)
    (addr port proto : Nat) : Option Nat :=
  match kvLookup activeSvcsMap ⟨addr, port, proto⟩ with
  | some id => some id
  | none =>
    let npIP := if family == 6 then podNPIPV6 else podNPIP
    kvLookup activeSvcsMap ⟨npIP, port, proto⟩

/-- `ConntrackDestIsService`. -/
def ConntrackDestIsService (family : Nat) (activeSvcsMap : KVMap ipPortProto Nat)
    (addr port proto : Nat) : Bool :=
  (conntrackGetSvcID family activeSvcsMap addr port proto).isSome

theorem addActiveEps_activeEps_ne (am : ActiveMaps) (id : Nat) (svc : serviceInfo)
    (eps : List Endpoint) (id2 : Nat) (h : ¬ id2 = id) :
    kvLookup (addActiveEps am id svc eps).activeEpsMap id2 = kvLookup am.activeEpsMap id2 := by
  unfold addActiveEps
  split
  · rfl
  · show kvLookup (kvSet _ _ _) _ = _
    rw [kvLookup_set, if_neg h]

theorem addActiveEps_activeEps_of_isEmpty (am : ActiveMaps) (id : Nat) (svc : serviceInfo)
    (eps : List Endpoint) (h : eps.isEmpty = true) :
    (addActiveEps am id svc eps).activeEpsMap = am.activeEpsMap := by
  unfold addActiveEps
  rw [if_pos h]

theorem addActiveEps_activeEps_self (am : ActiveMaps) (id : Nat) (svc : serviceInfo)
    (eps : List Endpoint) (h : eps.isEmpty = false) :
    kvLookup (addActiveEps am id svc eps).activeEpsMap id = some (activeEpsOf svc eps) := by
  unfold addActiveEps
  rw [if_neg (by rw [h]; exact Bool.false_ne_true)]
  show kvLookup (kvSet _ _ _) _ = _
  rw [kvLookup_set, if_pos rfl]

theorem addActiveEps_activeSvcs (am : ActiveMaps) (id : Nat) (svc : serviceInfo)
    (eps : List Endpoint) (k : ipPortProto) :
    kvLookup (addActiveEps am id svc eps).activeSvcsMap k
      = if k = servicePortToIPPortProto svc then some id else kvLookup am.activeSvcsMap k := by
  unfold addActiveEps
  split
  · exact kvLookup_set ..
  · exact kvLookup_set ..

theorem scanFold_preserves_activeEps (newEpsMap : KVMap String (List Endpoint))
    (skey : svcKey) (sinfo : svcInfo) :
    ∀ (l : List (svcKey × svcInfo)) (am : ActiveMaps),
    (∀ p ∈ l, p.2.id = sinfo.id →
      (p.2.count = 0 ∨ isSvcKeyDerived p.1 = true
        ∨ (kvLookup newEpsMap p.1.sname).getD [] = [] ∨ p = (skey, sinfo))) →
    kvLookup am.activeEpsMap sinfo.id
      = some (activeEpsOf sinfo.svc ((kvLookup newEpsMap skey.sname).getD [])) →
    kvLookup ((l.foldl (conntrackScanStep newEpsMap) am)).activeEpsMap sinfo.id
      = some (activeEpsOf sinfo.svc ((kvLookup newEpsMap skey.sname).getD [])) := by
  intro l
  induction l with
  | nil => intro am _ ham; exact ham
  | cons p rest ih =>
    intro am hcond ham
    rw [List.foldl_cons]
    refine ih _ (fun q hq hid => hcond q (List.mem_cons_of_mem _ hq) hid) ?_
    unfold conntrackScanStep
    by_cases h0 : (p.2.count == 0) = true
    · rw [if_pos h0]; exact ham
    · rw [if_neg h0]
      by_cases hd : isSvcKeyDerived p.1 = true
      · rw [if_pos hd, addActiveEps_activeEps_of_isEmpty am p.2.id p.2.svc [] rfl]
        exact ham
      · rw [if_neg hd]
        by_cases hid : p.2.id = sinfo.id
        · rcases hcond p (List.mem_cons_self _ _) hid with hc | hc | hc | hc
          · exact absurd (by simp [hc]) h0
          · exact absurd hc hd
          · rw [addActiveEps_activeEps_of_isEmpty am p.2.id p.2.svc
              ((kvLookup newEpsMap p.1.sname).getD []) (by rw [hc]; rfl)]
            exact ham
          · rw [hc]
            by_cases he : ((kvLookup newEpsMap skey.sname).getD []).isEmpty = true
            · rw [addActiveEps_activeEps_of_isEmpty am sinfo.id sinfo.svc
                ((kvLookup newEpsMap skey.sname).getD []) he]
              exact ham
            · exact addActiveEps_activeEps_self am sinfo.id sinfo.svc _
                (Bool.eq_false_iff.mpr he)
        · rw [addActiveEps_activeEps_ne am p.2.id p.2.svc
            ((kvLookup newEpsMap p.1.sname).getD []) sinfo.id (fun he => hid he.symm)]
          exact ham

theorem scanFold_records_activeEps (newEpsMap : KVMap String (List Endpoint))
    (skey : svcKey) (sinfo : svcInfo)
    (hcnt : ¬ sinfo.count = 0) (hder : isSvcKeyDerived skey = false)
    (heps : (kvLookup newEpsMap skey.sname).getD [] ≠ []) :
    ∀ (l : List (svcKey × svcInfo)) (am : ActiveMaps),
    (skey, sinfo) ∈ l →
    (∀ p ∈ l, p.2.id = sinfo.id →
      (p.2.count = 0 ∨ isSvcKeyDerived p.1 = true
        ∨ (kvLookup newEpsMap p.1.sname).getD [] = [] ∨ p = (skey, sinfo))) →
    kvLookup am.activeEpsMap sinfo.id = none →
    kvLookup ((l.foldl (conntrackScanStep newEpsMap) am)).activeEpsMap sinfo.id
      = some (activeEpsOf sinfo.svc ((kvLookup newEpsMap skey.sname).getD [])) := by
  have hwrite : ∀ am : ActiveMaps,
      kvLookup ((conntrackScanStep newEpsMap am (skey, sinfo))).activeEpsMap sinfo.id
        = some (activeEpsOf sinfo.svc ((kvLookup newEpsMap skey.sname).getD [])) := by
    intro am
    unfold conntrackScanStep
    rw [if_neg (by simpa using hcnt), if_neg (by simp [hder])]
    exact addActiveEps_activeEps_self am sinfo.id sinfo.svc _
      (by rcases hx : (kvLookup newEpsMap skey.sname).getD [] with _ | ⟨a, l2⟩
          · exact absurd hx heps
          · rfl)
  intro l
  induction l with
  | nil => intro am hmem; exact absurd hmem (List.not_mem_nil _)
  | cons p rest ih =>
    intro am hmem hcond hnone
    rw [List.foldl_cons]
    rcases List.mem_cons.mp hmem with heq | hrest
    · rw [← heq]
      exact scanFold_preserves_activeEps newEpsMap skey sinfo rest _
        (fun q hq hid => hcond q (List.mem_cons_of_mem _ hq) hid) (hwrite am)
    · by_cases hid : p.2.id = sinfo.id
      · rcases hcond p (List.mem_cons_self _ _) hid with hc | hc | hc | hc
        · refine ih _ hrest (fun q hq h2 => hcond q (List.mem_cons_of_mem _ hq) h2) ?_
          unfold conntrackScanStep
          rw [if_pos (by simp [hc])]
          exact hnone
        · refine ih _ hrest (fun q hq h2 => hcond q (List.mem_cons_of_mem _ hq) h2) ?_
          unfold conntrackScanStep
          by_cases h0 : (p.2.count == 0) = true
          · rw [if_pos h0]; exact hnone
          · rw [if_neg h0, if_pos hc,
              addActiveEps_activeEps_of_isEmpty am p.2.id p.2.svc [] rfl]
            exact hnone
        · refine ih _ hrest (fun q hq h2 => hcond q (List.mem_cons_of_mem _ hq) h2) ?_
          unfold conntrackScanStep
          by_cases h0 : (p.2.count == 0) = true
          · rw [if_pos h0]; exact hnone
          · rw [if_neg h0]
            by_cases hd : isSvcKeyDerived p.1 = true
            · rw [if_pos hd, addActiveEps_activeEps_of_isEmpty am p.2.id p.2.svc [] rfl]
              exact hnone
            · rw [if_neg hd, addActiveEps_activeEps_of_isEmpty am p.2.id p.2.svc
                ((kvLookup newEpsMap p.1.sname).getD []) (by rw [hc]; rfl)]
              exact hnone
        · rw [hc]
          exact scanFold_preserves_activeEps newEpsMap skey sinfo rest _
            (fun q hq h2 => hcond q (List.mem_cons_of_mem _ hq) h2) (hwrite am)
      · refine ih _ hrest (fun q hq h2 => hcond q (List.mem_cons_of_mem _ hq) h2) ?_
        unfold conntrackScanStep
        by_cases h0 : (p.2.count == 0) = true
        · rw [if_pos h0]; exact hnone
        · rw [if_neg h0]
          by_cases hd : isSvcKeyDerived p.1 = true
          · rw [if_pos hd, addActiveEps_activeEps_of_isEmpty am p.2.id p.2.svc [] rfl]
            exact hnone
          · rw [if_neg hd, addActiveEps_activeEps_ne am p.2.id p.2.svc
              ((kvLookup newEpsMap p.1.sname).getD []) sinfo.id (fun he => hid he.symm)]
            exact hnone

theorem updateService_newEpsMap_primary (s : Syncer) (skey : svcKey) (sinfo : serviceInfo)
    (id : Nat) (eps : List Endpoint)
    (h : hasSvcKeyExtra skey .svcTypeNodePortRemote = false) :
    kvLookup (updateService s skey sinfo id eps).1.newEpsMap skey.sname
      = some (eps.filter (fun e => e.isLocal) ++ eps.filter (fun e => !e.isLocal)) := by
  have hL3 := (updateSvcLoopLocals_spec id eps (preallocSticky s sinfo id) 0 0).2.2.1
  have hN2 := (updateSvcLoopNonLocals_spec id eps
      (updateSvcLoopLocals id (preallocSticky s sinfo id) 0 0 eps).1
      (updateSvcLoopLocals id (preallocSticky s sinfo id) 0 0 eps).2.1).2.1
  simp only [updateService, h, Bool.not_false, if_true]
  show kvLookup (kvSet _ _ _) _ = _
  rw [kvLookup_set, if_pos rfl, hL3, hN2]

/-- C6 (amended): after `ConntrackScanStart`, the active-endpoints view
maps the id of a primary (non-derived) entry with `count ≠ 0` whose id no
other effective entry shares to exactly the `(addr, port)` pairs of the
endpoint list `updateService` recorded in `newEpsMap` — all passed
endpoints, ready *or terminating*, locals first — minus terminating UDP
endpoints when the service has reap-terminating-UDP set.  Not-ready
terminating endpoints of non-UDP (or non-reaped) services are therefore
included, contrary to the claim's ready-only reading. -/
theorem c6_activeEps_characterization (newSvcMap : KVMap svcKey svcInfo)
    (newEpsMap : KVMap String (List Endpoint)) (skey : svcKey) (sinfo : svcInfo)
    (hmem : (skey, sinfo) ∈ newSvcMap)
    (hcnt : ¬ sinfo.count = 0)
    (hder : isSvcKeyDerived skey = false)
    (heps : (kvLookup newEpsMap skey.sname).getD [] ≠ [])
    (huniq : ∀ p ∈ newSvcMap, p.2.id = sinfo.id →
      (p.2.count = 0 ∨ isSvcKeyDerived p.1 = true
        ∨ (kvLookup newEpsMap p.1.sname).getD [] = [] ∨ p = (skey, sinfo))) :
    kvLookup (ConntrackScanStart newSvcMap newEpsMap).activeEpsMap sinfo.id
      = some (activeEpsOf sinfo.svc ((kvLookup newEpsMap skey.sname).getD [])) ∧
    (∀ pr : ipPort, pr ∈ activeEpsOf sinfo.svc ((kvLookup newEpsMap skey.sname).getD [])
      ↔ ∃ ep ∈ (kvLookup newEpsMap skey.sname).getD [],
          ¬(ep.isTerminating = true ∧ sinfo.svc.protocol = Protocol.UDP
              ∧ sinfo.svc.reapTerminatingUDP = true)
          ∧ pr = ⟨ep.addr, ep.port⟩) ∧
    (∀ (s2 : Syncer) (skey2 : svcKey) (sinfo2 : serviceInfo) (id2 : Nat) (el : List Endpoint),
      hasSvcKeyExtra skey2 .svcTypeNodePortRemote = false →
      kvLookup (updateService s2 skey2 sinfo2 id2 el).1.newEpsMap skey2.sname
        = some (el.filter (fun e => e.isLocal) ++ el.filter (fun e => !e.isLocal))) := by
  refine ⟨?_, ?_, fun s2 skey2 sinfo2 id2 el h => updateService_newEpsMap_primary s2 skey2 sinfo2 id2 el h⟩
  · exact scanFold_records_activeEps newEpsMap skey sinfo hcnt hder heps newSvcMap
      ⟨[], []⟩ hmem huniq rfl
  · intro pr
    unfold activeEpsOf
    constructor
    · intro hpr
      obtain ⟨ep, hep, hval⟩ := List.mem_map.mp hpr
      obtain ⟨hep1, hep2⟩ := List.mem_filter.mp hep
      refine ⟨ep, hep1, ?_, hval.symm⟩
      intro ⟨h1, h2, h3⟩
      simp [h1, h2, h3] at hep2
    · rintro ⟨ep, hep, hnot, hval⟩
      refine List.mem_map.mpr ⟨ep, List.mem_filter.mpr ⟨hep, ?_⟩, hval.symm⟩
      by_cases h1 : ep.isTerminating = true
      · by_cases h2 : sinfo.svc.protocol = Protocol.UDP
        · by_cases h3 : sinfo.svc.reapTerminatingUDP = true
          · exact absurd ⟨h1, h2, h3⟩ hnot
          · simp [h1, h2, Bool.eq_false_iff.mpr h3]
        · simp [h1, fun hx => h2 (by simpa using hx)]
      · simp [Bool.eq_false_iff.mpr h1]

/-- Endpoints for the C6 example: one ready, one terminating non-ready. -/
def c6epReady : Endpoint := ⟨10, 8080, false, true, false⟩

/-- The terminating, not-ready TCP endpoint of the C6 counterexample. -/
def c6epTerm : Endpoint := ⟨11, 8081, false, false, true⟩

/-- The single-service `newSvcMap` of the C6 example (TCP, id 1, count 1). -/
def c6map : KVMap svcKey svcInfo := [(⟨"s", ""⟩, ⟨1, 1, 0, sampleSvc⟩)]

/-- The `newEpsMap` of the C6 example. -/
def c6eps : KVMap String (List Endpoint) := [("s", [c6epReady, c6epTerm])]

theorem c6_activeEps_characterization_witness :
    kvLookup (ConntrackScanStart c6map c6eps).activeEpsMap (1 : Nat)
      = some (activeEpsOf sampleSvc ((kvLookup c6eps "s").getD [])) ∧
    (∀ pr : ipPort, pr ∈ activeEpsOf sampleSvc ((kvLookup c6eps "s").getD [])
      ↔ ∃ ep ∈ (kvLookup c6eps "s").getD [],
          ¬(ep.isTerminating = true ∧ sampleSvc.protocol = Protocol.UDP
              ∧ sampleSvc.reapTerminatingUDP = true)
          ∧ pr = ⟨ep.addr, ep.port⟩) ∧
    (∀ (s2 : Syncer) (skey2 : svcKey) (sinfo2 : serviceInfo) (id2 : Nat) (el : List Endpoint),
      hasSvcKeyExtra skey2 .svcTypeNodePortRemote = false →
      kvLookup (updateService s2 skey2 sinfo2 id2 el).1.newEpsMap skey2.sname
        = some (el.filter (fun e => e.isLocal) ++ el.filter (fun e => !e.isLocal))) :=
  c6_activeEps_characterization c6map c6eps ⟨"s", ""⟩ ⟨1, 1, 0, sampleSvc⟩
    (by decide) (by decide) (by decide) (by decide) (by decide)

/-- C6 counterexample: a terminating, not-ready TCP endpoint is present in
the active-endpoints view, although the claim says every endpoint that is
not ready is excluded. -/
theorem c6_counterexample :
    c6epTerm.isReady = false ∧
    (⟨11, 8081⟩ : ipPort) = ⟨c6epTerm.addr, c6epTerm.port⟩ ∧
    (⟨11, 8081⟩ : ipPort) ∈ (kvLookup (ConntrackScanStart c6map c6eps).activeEpsMap 1).getD []
    := by decide

/-! ## Active services and the conntrack destination test (claim C10) -/

theorem scanFold_svcs_mono (newEpsMap : KVMap String (List Endpoint)) :
    ∀ (l : List (svcKey × svcInfo)) (am : ActiveMaps) (k : ipPortProto),
    (kvLookup am.activeSvcsMap k).isSome = true →
    (kvLookup ((l.foldl (conntrackScanStep newEpsMap) am)).activeSvcsMap k).isSome = true := by
  intro l
  induction l with
  | nil => intro am k h; exact h
  | cons p rest ih =>
    intro am k h
    rw [List.foldl_cons]
    refine ih _ k ?_
    unfold conntrackScanStep
    by_cases h0 : (p.2.count == 0) = true
    · rw [if_pos h0]; exact h
    · rw [if_neg h0]
      by_cases hd : isSvcKeyDerived p.1 = true
      · rw [if_pos hd, addActiveEps_activeSvcs]
        split
        · rfl
        · exact h
      · rw [if_neg hd, addActiveEps_activeSvcs]
        split
        · rfl
        · exact h

/-- C10 (amended): after `ConntrackScanStart` the active-services view has
an `(addr, port, proto)` entry for every entry of the current sync whose
`count` is non-zero (derived entries included; `count = 0` entries are
skipped), and `ConntrackDestIsService` is a membership test on that view
with the sentinel node-port IP of the current family as fallback. -/
theorem c10_activeSvcs_and_dest (newSvcMap : KVMap svcKey svcInfo)
    (newEpsMap : KVMap String (List Endpoint)) :
    (∀ p ∈ newSvcMap, ¬ p.2.count = 0 →
      (kvLookup (ConntrackScanStart newSvcMap newEpsMap).activeSvcsMap
        (servicePortToIPPortProto p.2.svc)).isSome = true) ∧
    (∀ (family : Nat) (m : KVMap ipPortProto Nat) (addr port proto : Nat),
      ConntrackDestIsService family m addr port proto
        = ((kvLookup m ⟨addr, port, proto⟩).isSome
            || (kvLookup m ⟨(if family == 6 then podNPIPV6 else podNPIP), port, proto⟩).isSome)) := by
  constructor
  · have hrec : ∀ (l : List (svcKey × svcInfo)) (am : ActiveMaps) (p : svcKey × svcInfo),
        p ∈ l → ¬ p.2.count = 0 →
        (kvLookup ((l.foldl (conntrackScanStep newEpsMap) am)).activeSvcsMap
          (servicePortToIPPortProto p.2.svc)).isSome = true := by
      intro l
      induction l with
      | nil => intro am p hmem; exact absurd hmem (List.not_mem_nil _)
      | cons q rest ih =>
        intro am p hmem hcnt
        rw [List.foldl_cons]
        rcases List.mem_cons.mp hmem with heq | hrest
        · subst heq
          apply scanFold_svcs_mono newEpsMap rest _ _
          unfold conntrackScanStep
          rw [if_neg (by simpa using hcnt)]
          by_cases hd : isSvcKeyDerived p.1 = true
          · rw [if_pos hd, addActiveEps_activeSvcs, if_pos rfl]
            rfl
          · rw [if_neg hd, addActiveEps_activeSvcs, if_pos rfl]
            rfl
        · exact ih _ p hrest hcnt
    intro p hmem hcnt
    exact hrec newSvcMap ⟨[], []⟩ p hmem hcnt
  · intro family m addr port proto
    unfold ConntrackDestIsService conntrackGetSvcID
    cases kvLookup m ⟨addr, port, proto⟩ <;> simp

/-- The single-entry `newSvcMap` of the C10 counterexample: a service of
the current sync whose `count` is 0. -/
def c10map : KVMap svcKey svcInfo := [(⟨"s", ""⟩, ⟨3, 0, 0, sampleSvc⟩)]

/-- C10 counterexample: a service entry of the current sync with `count = 0`
gets no active-services entry at all — its `(addr, port, proto)` is not in
the view and `ConntrackDestIsService` rejects it, although the claim
demands an entry for every service entry of the current sync. -/
theorem c10_counterexample :
    ((⟨"s", ""⟩, (⟨3, 0, 0, sampleSvc⟩ : svcInfo)) ∈ c10map) ∧
    (ConntrackScanStart c10map []).activeSvcsMap = [] ∧
    ConntrackDestIsService 4 (ConntrackScanStart c10map []).activeSvcsMap
      sampleSvc.clusterIP sampleSvc.port (ProtoV1ToInt sampleSvc.protocol) = false := by decide

/-! ## Node-port expansion and the background fix-up task (claim C9) -/

/-- Modelled from the spec: the routes surface — a route's `Flags()`
reduced to the two bits the syncer tests (`Workload`, `Local`) plus
`NextHop()`. -/
structure RouteInfo where
  isWorkload : Bool
  isLocal : Bool
  nextHop : Nat
  deriving DecidableEq, Repr

/-- `expandMiss`. -/
structure expandMiss where
  sname : String
  sinfo : serviceInfo
  eps : List Endpoint
  nport : Nat
  deriving DecidableEq, Repr

/-- The loop of `expandNodePorts`: endpoints with no route are collected
(in order) as misses; endpoints whose route is a remote workload are
grouped under the route's next hop; all others are skipped. -/
def expandLoop (rtLookup : Nat → Option RouteInfo) :
    List Endpoint → KVMap Nat (List Endpoint) → List Endpoint
      → KVMap Nat (List Endpoint) × List Endpoint
  | [], acc, missEps => (acc, missEps)
  | ep :: rest, acc, missEps =>
    match rtLookup ep.addr with
    | none => expandLoop rtLookup rest acc (missEps ++ [ep])
    | some rt =>
      if rt.isWorkload && !rt.isLocal then
        expandLoop rtLookup rest
          (kvSet acc rt.nextHop ((kvLookup acc rt.nextHop).getD [] ++ [ep])) missEps
      else expandLoop rtLookup rest acc missEps

/-- `expandNodePorts`. -/
def expandNodePorts (sname : String) (sinfo : serviceInfo) (eps : List Endpoint)
    (nport : Nat) (rtLookup : Nat → Option RouteInfo) :
    KVMap Nat (List Endpoint) × Option expandMiss :=
  let r := expandLoop rtLookup eps [] []
  (r.1, if r.2.isEmpty then none else some ⟨sname, sinfo, r.2, nport⟩)

/-- The re-expansion pass of the fix-up callback in `runExpandNPFixup`:
re-expand every miss, keep the still-missing ones (`again`), and flag
`missesChanged` when a miss resolved entirely or its endpoint set
changed. -/
def fixupScan (lk : Nat → Option RouteInfo) : List expandMiss → List expandMiss × Bool
  | [] => ([], false)
  | m :: rest =>
    let r := fixupScan lk rest
    match (expandNodePorts m.sname m.sinfo m.eps m.nport lk).2 with
    | some mm => (mm :: r.1, (!(decide (m.eps = mm.eps))) || r.2)
    | none => (r.1, true)

/-- The fix-up task driven by a list of route-table wake-ups: each wake
runs `fixupScan`; the trigger callback fires when something changed (and a
callback is set); the `WaitAfter` closure returns true — and the task then
exits — only when no miss remains.  Returns the trigger trace, the
remaining misses and whether the task exited (rather than still blocking
on the route table). -/
def runFixup (hasTrigger : Bool) :
    List (Nat → Option RouteInfo) → List expandMiss → List Bool × List expandMiss × Bool
  | [], misses => ([], misses, false)
  | lk :: wakes, misses =>
    let r := fixupScan lk misses
    let triggered := r.2 && hasTrigger
    if r.1.isEmpty then ([triggered], r.1, true)
    else
      let rest := runFixup hasTrigger wakes r.1
      (triggered :: rest.1, rest.2.1, rest.2.2)

theorem fixupScan_again (lk : Nat → Option RouteInfo) (misses : List expandMiss) :
    (fixupScan lk misses).1
      = misses.filterMap (fun m => (expandNodePorts m.sname m.sinfo m.eps m.nport lk).2) := by
  induction misses with
  | nil => rfl
  | cons m rest ih =>
    unfold fixupScan
    cases hx : (expandNodePorts m.sname m.sinfo m.eps m.nport lk).2 with
    | none => simp [List.filterMap_cons, hx, ih]
    | some mm => simp [List.filterMap_cons, hx, ih]

theorem fixupScan_changed (lk : Nat → Option RouteInfo) (misses : List expandMiss) :
    ((fixupScan lk misses).2 = true ↔ ∃ m ∈ misses,
      (expandNodePorts m.sname m.sinfo m.eps m.nport lk).2 = none ∨
      (∃ mm, (expandNodePorts m.sname m.sinfo m.eps m.nport lk).2 = some mm
        ∧ ¬ mm.eps = m.eps)) := by
  induction misses with
  | nil => simp [fixupScan]
  | cons m rest ih =>
    unfold fixupScan
    cases hx : (expandNodePorts m.sname m.sinfo m.eps m.nport lk).2 with
    | none =>
      constructor
      · intro _
        exact ⟨m, List.mem_cons_self _ _, Or.inl hx⟩
      · intro _
        rfl
    | some mm =>
      constructor
      · intro hc
        rcases (Bool.or_eq_true ..).mp hc with h1 | h1
        · have hne : ¬ m.eps = mm.eps := by simpa using h1
          exact ⟨m, List.mem_cons_self _ _, Or.inr ⟨mm, hx, fun he => hne he.symm⟩⟩
        · obtain ⟨q, hq, hd⟩ := ih.mp h1
          exact ⟨q, List.mem_cons_of_mem _ hq, hd⟩
      · rintro ⟨q, hq, hd⟩
        rcases List.mem_cons.mp hq with heq | hq2
        · subst heq
          rcases hd with h1 | ⟨mm2, h2, h3⟩
          · rw [hx] at h1
            exact Option.noConfusion h1
          · rw [hx] at h2
            have h4 := Option.some.inj h2
            subst h4
            apply (Bool.or_eq_true ..).mpr
            left
            simpa using fun he => h3 he.symm
        · exact (Bool.or_eq_true ..).mpr (Or.inr (ih.mpr ⟨q, hq2, hd⟩))

/-- C9 (amended): after a route-table wake, the task re-expands all misses;
the trigger callback is invoked exactly when a callback is set and some
miss resolved entirely or had its endpoint set change; but the task exits
only when every miss resolved — when misses remain it keeps looping (until
cancelled), even after triggering; the surviving misses are exactly the
still-unresolved re-expansions, in order. -/
theorem c9_fixup_wake_characterization (hasTrigger : Bool) (misses : List expandMiss)
    (lk : Nat → Option RouteInfo) :
    (fixupScan lk misses).1
      = misses.filterMap (fun m => (expandNodePorts m.sname m.sinfo m.eps m.nport lk).2) ∧
    ((fixupScan lk misses).2 = true ↔ ∃ m ∈ misses,
      (expandNodePorts m.sname m.sinfo m.eps m.nport lk).2 = none ∨
      (∃ mm, (expandNodePorts m.sname m.sinfo m.eps m.nport lk).2 = some mm
        ∧ ¬ mm.eps = m.eps)) ∧
    (runFixup hasTrigger [lk] misses).1 = [(fixupScan lk misses).2 && hasTrigger] ∧
    ((runFixup hasTrigger [lk] misses).2.2 = true ↔
      ∀ m ∈ misses, (expandNodePorts m.sname m.sinfo m.eps m.nport lk).2 = none) ∧
    (runFixup hasTrigger [lk] misses).2.1 = (fixupScan lk misses).1 := by
  refine ⟨fixupScan_again lk misses, fixupScan_changed lk misses, ?_, ?_, ?_⟩
  · by_cases hem : (fixupScan lk misses).1.isEmpty = true
    · simp [runFixup, hem]
    · simp [runFixup, hem]
  · by_cases hem : (fixupScan lk misses).1.isEmpty = true
    · simp only [runFixup, hem, if_true]
      simp only [true_iff]
      intro m hm
      have h1 := fixupScan_again lk misses
      rw [List.isEmpty_iff] at hem
      rw [hem] at h1
      exact List.filterMap_eq_nil_iff.mp h1.symm m hm
    · simp only [runFixup, hem, if_false]
      constructor
      · intro hfalse
        exact absurd hfalse (by simp [runFixup])
      · intro hall
        exact absurd ((List.isEmpty_iff).mpr (by
          rw [fixupScan_again lk misses]
          exact List.filterMap_eq_nil_iff.mpr hall)) hem
  · by_cases hem : (fixupScan lk misses).1.isEmpty = true
    · simp [runFixup, hem]
    · simp [runFixup, hem]

/-- An endpoint whose route resolves to a remote workload in the C9
counterexample. -/
def c9epA : Endpoint := ⟨10, 8080, false, true, false⟩

/-- An endpoint that stays unroutable in the C9 counterexample. -/
def c9epB : Endpoint := ⟨11, 8080, false, true, false⟩

/-- A route table that knows only endpoint `c9epA`'s address. -/
def c9lookup : Nat → Option RouteInfo :=
  fun a => if a == 10 then some ⟨true, false, 99⟩ else none

/-- A miss whose endpoint set will shrink but not drain on the next wake. -/
def c9miss : expandMiss := ⟨"s", sampleSvc, [c9epA, c9epB], 31000⟩

/-- C9 counterexample: on a wake where one endpoint of a miss resolves and
another does not, the endpoint set changed, so the trigger callback fires —
but the task does not exit: the shrunken miss survives and the task keeps
looping, contrary to the claim that it "invokes the trigger callback and
exits". -/
theorem c9_counterexample :
    (fixupScan c9lookup [c9miss]).2 = true ∧
    runFixup true [c9lookup] [c9miss]
      = ([true], [⟨"s", sampleSvc, [c9epB], 31000⟩], false) := by decide

/-! ## The four-phase kernel apply (claim C1)

The `cachingmap` package is not among the provided sources; its three
partial-apply operations are modelled from the spec (§4.1): deletions apply
every dataplane key absent from the desired cache, updates apply every
desired entry that is new or changed (unchanged keys are skipped), each
kernel write may fail, and a failed write stops the operation leaving the
state as written so far.  `Syncer.apply` drives them in the strict order
frontend deletions, backend updates, frontend updates, backend deletions;
the resulting kernel-write sequence is the event trace below. -/

/-- One kernel-map write of the apply phase. -/
inductive NatEv where
  | fdel (k : FrontendKey)
  | bupd (k : BackendKey) (v : BackendValue)
  | fupd (k : FrontendKey) (v : FrontendValue)
  | bdel (k : BackendKey)
  deriving DecidableEq, Repr

/-- The phase an event belongs to, in `Syncer.apply` order. -/
def evPhase : NatEv → Nat
  | .fdel _ => 0
  | .bupd _ _ => 1
  | .fupd _ _ => 2
  | .bdel _ => 3

/-- The kernel-resident state of the two NAT maps. -/
structure KernelState where
  svcs : KVMap FrontendKey FrontendValue
  eps : KVMap BackendKey BackendValue
  deriving Repr

/-- The backend slots a frontend value references: `(id, 0) … (id, count−1)`,
and none at all for a blackhole sentinel (which drops packets instead of
forwarding). -/
def natRefs (v : FrontendValue) : List BackendKey :=
  if v.count = BlackHoleCount then []
  else (List.range v.count).map (fun i => ⟨v.id, i⟩)

/-- Modelled from the spec: `bpfSvcs.ApplyDeletionsOnly()` — delete every
dataplane frontend key absent from the desired cache. -/
def svcsDeletionEvents (dpS desS : KVMap FrontendKey FrontendValue) : List NatEv :=
  ((kvKeys dpS).filter (fun k => !(kvContains desS k))).map NatEv.fdel

/-- Modelled from the spec: `bpfEps.ApplyUpdatesOnly()` — write every
desired backend entry that is new or changed. -/
def epsUpdateEvents (dpE desE : KVMap BackendKey BackendValue) : List NatEv :=
  (desE.filter (fun p => !(decide (kvLookup dpE p.1 = some p.2)))).map
    (fun p => NatEv.bupd p.1 p.2)

/-- Modelled from the spec: `bpfSvcs.ApplyUpdatesOnly()`. -/
def svcsUpdateEvents (dpS desS : KVMap FrontendKey FrontendValue) : List NatEv :=
  (desS.filter (fun p => !(decide (kvLookup dpS p.1 = some p.2)))).map
    (fun p => NatEv.fupd p.1 p.2)

/-- Modelled from the spec: `bpfEps.ApplyDeletionsOnly()`. -/
def epsDeletionEvents (dpE desE : KVMap BackendKey BackendValue) : List NatEv :=
  ((kvKeys dpE).filter (fun k => !(kvContains desE k))).map NatEv.bdel

/-- The kernel-write trace of `Syncer.apply`: frontend deletions, then
backend adds/updates, then frontend adds/updates, then backend deletions. -/
def applyOrderTrace (dpS desS : KVMap FrontendKey FrontendValue)
    (dpE desE : KVMap BackendKey BackendValue) : List NatEv :=
  svcsDeletionEvents dpS desS ++ (epsUpdateEvents dpE desE
    ++ (svcsUpdateEvents dpS desS ++ epsDeletionEvents dpE desE))

/-- Apply one write to the kernel. -/
def stepEv (st : KernelState) : NatEv → KernelState
  | .fdel k => { st with svcs := kvDelete st.svcs k }
  | .bupd k v => { st with eps := kvSet st.eps k v }
  | .fupd k v => { st with svcs := kvSet st.svcs k v }
  | .bdel k => { st with eps := kvDelete st.eps k }

/-- Apply a write sequence. -/
def runEvents (st : KernelState) (evs : List NatEv) : KernelState :=
  evs.foldl stepEv st

/-- Run writes against a fallible kernel: the oracle says whether a write
succeeds; the first failure short-circuits.  Returns the final state, the
writes that executed, and whether everything succeeded. -/
def runWrites (oracle : NatEv → Bool) : KernelState → List NatEv
    → KernelState × List NatEv × Bool
  | st, [] => (st, [], true)
  | st, e :: rest =>
    if oracle e then
      let r := runWrites oracle (stepEv st e) rest
      (r.1, e :: r.2.1, r.2.2)
    else (st, [], false)

/-- Kernel coherence: every installed frontend references only installed
backend slots. -/
def coherent (st : KernelState) : Prop :=
  ∀ k v, kvLookup st.svcs k = some v → ∀ bk ∈ natRefs v, kvContains st.eps bk = true

/-- Coherence of the desired caches. -/
def desiredCoherent (desS : KVMap FrontendKey FrontendValue)
    (desE : KVMap BackendKey BackendValue) : Prop :=
  ∀ k v, kvLookup desS k = some v → ∀ bk ∈ natRefs v, kvContains desE bk = true

theorem runEvents_append (st : KernelState) (a b : List NatEv) :
    runEvents st (a ++ b) = runEvents (runEvents st a) b :=
  List.foldl_append ..

theorem runWrites_spec (oracle : NatEv → Bool) :
    ∀ (evs : List NatEv) (st : KernelState),
    ∃ ex, ex <+: evs ∧ (runWrites oracle st evs).1 = runEvents st ex ∧
      (runWrites oracle st evs).2.1 = ex ∧
      ((runWrites oracle st evs).2.2 = true ↔ ex = evs) := by
  intro evs
  induction evs with
  | nil =>
    intro st
    exact ⟨[], List.prefix_refl _, rfl, rfl, by simp [runWrites]⟩
  | cons e rest ih =>
    intro st
    by_cases ho : oracle e = true
    · obtain ⟨ex, hpre, h1, h2, h3⟩ := ih (stepEv st e)
      refine ⟨e :: ex, ?_, ?_, ?_, ?_⟩
      · exact List.cons_prefix_cons.mpr ⟨rfl, hpre⟩
      · simp only [runWrites, ho, if_true]
        exact h1
      · simp only [runWrites, ho, if_true]
        rw [h2]
      · simp only [runWrites, ho, if_true]
        rw [h3]
        constructor
        · intro h; rw [h]
        · intro h; exact (List.cons.injEq .. ▸ h).2
    · refine ⟨[], List.nil_prefix, ?_, ?_, ?_⟩
      · simp [runWrites, ho]
        rfl
      · simp [runWrites, ho]
      · simp [runWrites, ho]

theorem prefix_append_cases {α : Type} (a b p : List α) (h : p <+: a ++ b) :
    p <+: a ∨ ∃ q, q <+: b ∧ p = a ++ q := by
  induction a generalizing p with
  | nil => exact Or.inr ⟨p, by simpa using h, rfl⟩
  | cons x xs ih =>
    rcases p with _ | ⟨y, ys⟩
    · exact Or.inl List.nil_prefix
    · rw [List.cons_append] at h
      obtain ⟨hy, hys⟩ := List.cons_prefix_cons.mp h
      subst hy
      rcases ih ys hys with h1 | ⟨q, hq, he⟩
      · exact Or.inl (List.cons_prefix_cons.mpr ⟨rfl, h1⟩)
      · exact Or.inr ⟨q, hq, by rw [List.cons_append, he]⟩

theorem coherent_step_fdel (st : KernelState) (k : FrontendKey) (h : coherent st) :
    coherent (stepEv st (.fdel k)) := by
  intro k2 v hl bk hbk
  have hl2 : kvLookup st.svcs k2 = some v := by
    rw [show (stepEv st (.fdel k)).svcs = kvDelete st.svcs k from rfl, kvLookup_delete] at hl
    by_cases hk : k2 = k
    · rw [if_pos hk] at hl
      exact Option.noConfusion hl
    · rw [if_neg hk] at hl
      exact hl
  exact h k2 v hl2 bk hbk

theorem coherent_runEvents_fdels :
    ∀ (evs : List NatEv) (st : KernelState), (∀ e ∈ evs, ∃ k, e = NatEv.fdel k) →
    coherent st → coherent (runEvents st evs) := by
  intro evs
  induction evs with
  | nil => intro st _ h; exact h
  | cons e rest ih =>
    intro st hall h
    obtain ⟨k, hk⟩ := hall e (List.mem_cons_self _ _)
    subst hk
    exact ih (stepEv st (.fdel k)) (fun x hx => hall x (List.mem_cons_of_mem _ hx))
      (coherent_step_fdel st k h)

theorem eps_runEvents_fdels :
    ∀ (evs : List NatEv) (st : KernelState), (∀ e ∈ evs, ∃ k, e = NatEv.fdel k) →
    (runEvents st evs).eps = st.eps := by
  intro evs
  induction evs with
  | nil => intro st _; rfl
  | cons e rest ih =>
    intro st hall
    obtain ⟨k, hk⟩ := hall e (List.mem_cons_self _ _)
    subst hk
    exact ih (stepEv st (.fdel k)) (fun x hx => hall x (List.mem_cons_of_mem _ hx))

theorem svcs_runEvents_fdels (ks : List FrontendKey) :
    ∀ (st : KernelState) (k : FrontendKey),
    kvLookup (runEvents st (ks.map NatEv.fdel)).svcs k
      = if k ∈ ks then none else kvLookup st.svcs k := by
  induction ks with
  | nil => intro st k; simp [runEvents]
  | cons k0 rest ih =>
    intro st k
    rw [List.map_cons, show runEvents st (NatEv.fdel k0 :: rest.map NatEv.fdel)
      = runEvents (stepEv st (.fdel k0)) (rest.map NatEv.fdel) from rfl, ih]
    by_cases h1 : k ∈ rest
    · simp [h1]
    · rw [if_neg h1,
        show (stepEv st (.fdel k0)).svcs = kvDelete st.svcs k0 from rfl, kvLookup_delete]
      by_cases h0 : k = k0
      · simp [h0]
      · simp [h0, h1]

theorem coherent_step_bupd (st : KernelState) (k : BackendKey) (v : BackendValue)
    (h : coherent st) : coherent (stepEv st (.bupd k v)) := by
  intro k2 v2 hl bk hbk
  have h2 := h k2 v2 hl bk hbk
  show kvContains (kvSet st.eps k v) bk = true
  unfold kvContains at h2 ⊢
  rw [kvLookup_set]
  by_cases hbk2 : bk = k
  · rw [if_pos hbk2]
    rfl
  · rw [if_neg hbk2]
    exact h2

theorem bupd_batch :
    ∀ (evs : List NatEv) (st : KernelState), (∀ e ∈ evs, ∃ k v, e = NatEv.bupd k v) →
    ((coherent st → coherent (runEvents st evs)) ∧
     (runEvents st evs).svcs = st.svcs ∧
     (∀ bk, (kvContains st.eps bk = true ∨ ∃ v, NatEv.bupd bk v ∈ evs) →
       kvContains (runEvents st evs).eps bk = true)) := by
  intro evs
  induction evs with
  | nil =>
    intro st _
    refine ⟨fun h => h, rfl, fun bk hbk => ?_⟩
    rcases hbk with h | ⟨v, hv⟩
    · exact h
    · exact absurd hv (List.not_mem_nil _)
  | cons e rest ih =>
    intro st hall
    obtain ⟨k, v, hk⟩ := hall e (List.mem_cons_self _ _)
    subst hk
    obtain ⟨ih1, ih2, ih3⟩ := ih (stepEv st (.bupd k v))
      (fun x hx => hall x (List.mem_cons_of_mem _ hx))
    refine ⟨fun h => ih1 (coherent_step_bupd st k v h), ih2, fun bk hbk => ?_⟩
    apply ih3
    rcases hbk with h | ⟨v2, hv2⟩
    · left
      show kvContains (kvSet st.eps k v) bk = true
      unfold kvContains at h ⊢
      rw [kvLookup_set]
      by_cases hbk2 : bk = k
      · rw [if_pos hbk2]; rfl
      · rw [if_neg hbk2]; exact h
    · rcases List.mem_cons.mp hv2 with heq | hrest
      · have hbk : bk = k := by
          injection heq with h1 h2
        left
        show kvContains (kvSet st.eps k v) bk = true
        unfold kvContains
        rw [kvLookup_set, if_pos hbk]
        rfl
      · exact Or.inr ⟨v2, hrest⟩

theorem coherent_step_fupd (desE : KVMap BackendKey BackendValue) (st : KernelState)
    (k : FrontendKey) (v : FrontendValue)
    (hdc : ∀ bk ∈ natRefs v, kvContains desE bk = true)
    (hpres : ∀ bk, kvContains desE bk = true → kvContains st.eps bk = true)
    (h : coherent st) : coherent (stepEv st (.fupd k v)) := by
  intro k2 v2 hl bk hbk
  show kvContains st.eps bk = true
  rw [show (stepEv st (.fupd k v)).svcs = kvSet st.svcs k v from rfl, kvLookup_set] at hl
  by_cases hk : k2 = k
  · rw [if_pos hk] at hl
    have hv := Option.some.inj hl
    subst hv
    exact hpres bk (hdc bk hbk)
  · rw [if_neg hk] at hl
    exact h k2 v2 hl bk hbk

theorem fupd_batch (desS : KVMap FrontendKey FrontendValue)
    (desE : KVMap BackendKey BackendValue) (hdes : desiredCoherent desS desE) :
    ∀ (evs : List NatEv) (st : KernelState),
    (∀ e ∈ evs, ∃ k v, e = NatEv.fupd k v ∧ kvLookup desS k = some v) →
    (coherent st ∧ (∀ bk, kvContains desE bk = true → kvContains st.eps bk = true)) →
    (coherent (runEvents st evs) ∧ (runEvents st evs).eps = st.eps) := by
  intro evs
  induction evs with
  | nil => intro st _ h; exact ⟨h.1, rfl⟩
  | cons e rest ih =>
    intro st hall h
    obtain ⟨k, v, hk, hlk⟩ := hall e (List.mem_cons_self _ _)
    subst hk
    have hco : coherent (stepEv st (.fupd k v)) :=
      coherent_step_fupd desE st k v (fun bk hbk => hdes k v hlk bk hbk) h.2 h.1
    have hpres2 : ∀ bk, kvContains desE bk = true
        → kvContains (stepEv st (.fupd k v)).eps bk = true := h.2
    obtain ⟨r1, r2⟩ := ih (stepEv st (.fupd k v))
      (fun x hx => hall x (List.mem_cons_of_mem _ hx)) ⟨hco, hpres2⟩
    exact ⟨r1, r2⟩

theorem eps_runEvents_fupds :
    ∀ (evs : List NatEv) (st : KernelState), (∀ e ∈ evs, ∃ k v, e = NatEv.fupd k v) →
    (runEvents st evs).eps = st.eps := by
  intro evs
  induction evs with
  | nil => intro st _; rfl
  | cons e rest ih =>
    intro st hall
    obtain ⟨k, v, hk⟩ := hall e (List.mem_cons_self _ _)
    subst hk
    exact ih (stepEv st (.fupd k v)) (fun x hx => hall x (List.mem_cons_of_mem _ hx))

theorem svcs_fupds_not_mem (ps : List (FrontendKey × FrontendValue)) :
    ∀ (st : KernelState) (k : FrontendKey), k ∉ ps.map Prod.fst →
    kvLookup (runEvents st (ps.map (fun p => NatEv.fupd p.1 p.2))).svcs k
      = kvLookup st.svcs k := by
  induction ps with
  | nil => intro st k _; rfl
  | cons p rest ih =>
    intro st k hk
    have hk1 : ¬ k = p.1 := fun he => hk (by rw [List.map_cons]; exact he ▸ List.mem_cons_self _ _)
    have hk2 : k ∉ rest.map Prod.fst := fun he => hk (by rw [List.map_cons]; exact List.mem_cons_of_mem _ he)
    rw [List.map_cons, show runEvents st (NatEv.fupd p.1 p.2 :: rest.map (fun p => NatEv.fupd p.1 p.2))
      = runEvents (stepEv st (.fupd p.1 p.2)) (rest.map (fun p => NatEv.fupd p.1 p.2)) from rfl,
      ih (stepEv st (.fupd p.1 p.2)) k hk2,
      show (stepEv st (.fupd p.1 p.2)).svcs = kvSet st.svcs p.1 p.2 from rfl,
      kvLookup_set, if_neg hk1]

theorem svcs_fupds_mem (ps : List (FrontendKey × FrontendValue))
    (hnd : (ps.map Prod.fst).Nodup) :
    ∀ (st : KernelState) (k : FrontendKey) (v : FrontendValue), (k, v) ∈ ps →
    kvLookup (runEvents st (ps.map (fun p => NatEv.fupd p.1 p.2))).svcs k = some v := by
  induction ps with
  | nil => intro st k v hm; exact absurd hm (List.not_mem_nil _)
  | cons p rest ih =>
    intro st k v hm
    rw [List.map_cons] at hnd ⊢
    have hnd2 : (rest.map Prod.fst).Nodup := (List.nodup_cons.mp hnd).2
    rcases List.mem_cons.mp hm with heq | hrest
    · have hk : k ∉ rest.map Prod.fst := by
        intro hmem
        apply (List.nodup_cons.mp hnd).1
        rw [← heq]
        exact hmem
      rw [show runEvents st (NatEv.fupd p.1 p.2 :: rest.map (fun p => NatEv.fupd p.1 p.2))
          = runEvents (stepEv st (.fupd p.1 p.2)) (rest.map (fun p => NatEv.fupd p.1 p.2)) from rfl,
        svcs_fupds_not_mem rest (stepEv st (.fupd p.1 p.2)) k hk,
        show (stepEv st (.fupd p.1 p.2)).svcs = kvSet st.svcs p.1 p.2 from rfl, kvLookup_set]
      rw [← heq]
      simp
    · exact (show runEvents st (NatEv.fupd p.1 p.2 :: rest.map (fun p => NatEv.fupd p.1 p.2))
          = runEvents (stepEv st (.fupd p.1 p.2)) (rest.map (fun p => NatEv.fupd p.1 p.2)) from rfl)
        ▸ ih hnd2 (stepEv st (.fupd p.1 p.2)) k v hrest

/-- The invariant after the frontend-update phase completes: every
installed frontend carries its desired value, and every desired backend is
installed. -/
def postP3Inv (desS : KVMap FrontendKey FrontendValue)
    (desE : KVMap BackendKey BackendValue) (st : KernelState) : Prop :=
  (∀ k v, kvLookup st.svcs k = some v → kvLookup desS k = some v) ∧
  (∀ bk, kvContains desE bk = true → kvContains st.eps bk = true)

theorem coherent_of_postP3Inv {desS : KVMap FrontendKey FrontendValue}
    {desE : KVMap BackendKey BackendValue} {st : KernelState}
    (hdes : desiredCoherent desS desE) (h : postP3Inv desS desE st) : coherent st :=
  fun k v hl bk hbk => h.2 bk (hdes k v (h.1 k v hl) bk hbk)

theorem bdel_batch (desS : KVMap FrontendKey FrontendValue)
    (desE : KVMap BackendKey BackendValue) :
    ∀ (evs : List NatEv) (st : KernelState),
    (∀ e ∈ evs, ∃ bk, e = NatEv.bdel bk ∧ kvContains desE bk = false) →
    postP3Inv desS desE st → postP3Inv desS desE (runEvents st evs) := by
  intro evs
  induction evs with
  | nil => intro st _ h; exact h
  | cons e rest ih =>
    intro st hall h
    obtain ⟨bk0, hk, hbk0⟩ := hall e (List.mem_cons_self _ _)
    subst hk
    refine ih (stepEv st (.bdel bk0)) (fun x hx => hall x (List.mem_cons_of_mem _ hx)) ⟨h.1, ?_⟩
    intro bk hc
    have hne : ¬ bk = bk0 := by
      intro he
      rw [he, hbk0] at hc
      exact Bool.noConfusion hc
    show kvContains (kvDelete st.eps bk0) bk = true
    unfold kvContains
    rw [kvLookup_delete, if_neg hne]
    exact h.2 bk hc

theorem svcsDeletionEvents_shape (dpS desS : KVMap FrontendKey FrontendValue) :
    ∀ e ∈ svcsDeletionEvents dpS desS, ∃ k, e = NatEv.fdel k := by
  intro e he
  obtain ⟨k, _, hk⟩ := List.mem_map.mp he
  exact ⟨k, hk.symm⟩

theorem epsUpdateEvents_shape (dpE desE : KVMap BackendKey BackendValue) :
    ∀ e ∈ epsUpdateEvents dpE desE, ∃ k v, e = NatEv.bupd k v := by
  intro e he
  obtain ⟨p, _, hk⟩ := List.mem_map.mp he
  exact ⟨p.1, p.2, hk.symm⟩

theorem svcsUpdateEvents_shape (dpS desS : KVMap FrontendKey FrontendValue)
    (hwfS : kvWF desS) :
    ∀ e ∈ svcsUpdateEvents dpS desS, ∃ k v, e = NatEv.fupd k v
      ∧ kvLookup desS k = some v := by
  intro e he
  obtain ⟨p, hp, hk⟩ := List.mem_map.mp he
  exact ⟨p.1, p.2, hk.symm, kvLookup_of_mem hwfS (List.mem_filter.mp hp).1⟩

theorem epsDeletionEvents_shape (dpE desE : KVMap BackendKey BackendValue) :
    ∀ e ∈ epsDeletionEvents dpE desE, ∃ bk, e = NatEv.bdel bk
      ∧ kvContains desE bk = false := by
  intro e he
  obtain ⟨k, hkmem, hk⟩ := List.mem_map.mp he
  refine ⟨k, hk.symm, ?_⟩
  have := List.of_mem_filter hkmem
  simpa using this

theorem svcs_after_P1 (dpS desS : KVMap FrontendKey FrontendValue)
    (dpE : KVMap BackendKey BackendValue) :
    ∀ k, kvLookup (runEvents ⟨dpS, dpE⟩ (svcsDeletionEvents dpS desS)).svcs k
      = if kvContains desS k = true then kvLookup dpS k else none := by
  intro k
  unfold svcsDeletionEvents
  rw [svcs_runEvents_fdels]
  by_cases hc : kvContains desS k = true
  · have hk : k ∉ (kvKeys dpS).filter (fun k2 => !(kvContains desS k2)) := by
      intro hmem
      have h2 := List.of_mem_filter hmem
      rw [hc] at h2
      exact Bool.noConfusion h2
    rw [if_neg hk, if_pos hc]
  · have hc2 : kvContains desS k = false := Bool.eq_false_iff.mpr hc
    rw [if_neg hc]
    by_cases hdp : k ∈ kvKeys dpS
    · have hk : k ∈ (kvKeys dpS).filter (fun k2 => !(kvContains desS k2)) :=
        List.mem_filter.mpr ⟨hdp, by rw [hc2]; rfl⟩
      rw [if_pos hk]
    · have hnone : kvLookup dpS k = none := (kvLookup_eq_none_iff dpS k).mpr hdp
      have hk : k ∉ (kvKeys dpS).filter (fun k2 => !(kvContains desS k2)) :=
        fun hmem => hdp (List.mem_of_mem_filter hmem)
      rw [if_neg hk]
      exact hnone

theorem epsContains_after_P2 (dpE desE : KVMap BackendKey BackendValue)
    (st : KernelState) (heps : st.eps = dpE) :
    ∀ bk, kvContains desE bk = true →
    kvContains (runEvents st (epsUpdateEvents dpE desE)).eps bk = true := by
  intro bk hc
  obtain ⟨v, hv⟩ := Option.isSome_iff_exists.mp hc
  apply (bupd_batch (epsUpdateEvents dpE desE) st (epsUpdateEvents_shape dpE desE)).2.2 bk
  by_cases hdp : kvLookup dpE bk = some v
  · left
    unfold kvContains
    rw [heps, hdp]
    rfl
  · right
    refine ⟨v, ?_⟩
    unfold epsUpdateEvents
    exact List.mem_map.mpr ⟨(bk, v),
      List.mem_filter.mpr ⟨kvLookup_mem desE bk v hv, by simp [hdp]⟩, rfl⟩

theorem svcs_after_P3 (dpS desS : KVMap FrontendKey FrontendValue) (hwfS : kvWF desS)
    (st : KernelState)
    (hsvcs : ∀ k, kvLookup st.svcs k = if kvContains desS k = true then kvLookup dpS k else none) :
    ∀ k, kvLookup (runEvents st (svcsUpdateEvents dpS desS)).svcs k = kvLookup desS k := by
  intro k
  cases hdes : kvLookup desS k with
  | none =>
    have hk : k ∉ (desS.filter (fun p => !(decide (kvLookup dpS p.1 = some p.2)))).map Prod.fst := by
      intro hmem
      obtain ⟨p, hp, hfst⟩ := List.mem_map.mp hmem
      have hlk : kvLookup desS p.1 = some p.2 :=
        kvLookup_of_mem hwfS (List.mem_filter.mp hp).1
      rw [hfst, hdes] at hlk
      exact Option.noConfusion hlk
    rw [show svcsUpdateEvents dpS desS
        = (desS.filter (fun p => !(decide (kvLookup dpS p.1 = some p.2)))).map
            (fun p => NatEv.fupd p.1 p.2) from rfl,
      svcs_fupds_not_mem _ st k hk, hsvcs k]
    have hc : kvContains desS k = false := by
      unfold kvContains
      rw [hdes]
      rfl
    rw [hc]
    simp
  | some v =>
    by_cases hdp : kvLookup dpS k = some v
    · have hk : k ∉ (desS.filter (fun p => !(decide (kvLookup dpS p.1 = some p.2)))).map Prod.fst := by
        intro hmem
        obtain ⟨p, hp, hfst⟩ := List.mem_map.mp hmem
        obtain ⟨hpd, hpf⟩ := List.mem_filter.mp hp
        have hlk : kvLookup desS p.1 = some p.2 := kvLookup_of_mem hwfS hpd
        rw [hfst, hdes] at hlk
        have hv2 := Option.some.inj hlk
        rw [hfst, ← hv2, hdp] at hpf
        simp at hpf
      rw [show svcsUpdateEvents dpS desS
          = (desS.filter (fun p => !(decide (kvLookup dpS p.1 = some p.2)))).map
              (fun p => NatEv.fupd p.1 p.2) from rfl,
        svcs_fupds_not_mem _ st k hk, hsvcs k]
      have hc : kvContains desS k = true := by
        unfold kvContains
        rw [hdes]
        rfl
      rw [hc]
      simp [hdp]
    · have hmem : (k, v) ∈ desS.filter (fun p => !(decide (kvLookup dpS p.1 = some p.2))) :=
        List.mem_filter.mpr ⟨kvLookup_mem desS k v hdes, by simp [hdp]⟩
      have hnd : ((desS.filter (fun p => !(decide (kvLookup dpS p.1 = some p.2)))).map Prod.fst).Nodup :=
        ((List.filter_sublist desS).map Prod.fst).nodup hwfS
      rw [show svcsUpdateEvents dpS desS
          = (desS.filter (fun p => !(decide (kvLookup dpS p.1 = some p.2)))).map
              (fun p => NatEv.fupd p.1 p.2) from rfl,
        svcs_fupds_mem _ hnd st k v hmem]

theorem pairwise_phase_const (l : List NatEv) (c : Nat) (h : ∀ e ∈ l, evPhase e = c) :
    List.Pairwise (fun a b => evPhase a ≤ evPhase b) l := by
  induction l with
  | nil => exact List.Pairwise.nil
  | cons e rest ih =>
    refine List.Pairwise.cons ?_ (ih (fun x hx => h x (List.mem_cons_of_mem _ hx)))
    intro b hb
    rw [h e (List.mem_cons_self _ _), h b (List.mem_cons_of_mem _ hb)]

/-- C1: the kernel writes of one `Syncer.apply` happen in the strict
four-phase order (frontend deletions, backend adds/updates, frontend
adds/updates, backend deletions); starting from a coherent kernel with
coherent desired caches, after every executed prefix of the trace no
installed frontend references an absent backend slot (so no frontend is
installed before its backends, and no backend is removed before the
frontend referencing it is removed or updated); and a failed write
short-circuits, leaving exactly the state of the writes executed so far,
with success reported only for the complete trace. -/
theorem c1_apply_four_phase_order (dpS desS : KVMap FrontendKey FrontendValue)
    (dpE desE : KVMap BackendKey BackendValue) (oracle : NatEv → Bool)
    (hwfS : kvWF desS)
    (hco : coherent ⟨dpS, dpE⟩)
    (hdes : desiredCoherent desS desE) :
    List.Pairwise (fun a b => evPhase a ≤ evPhase b) (applyOrderTrace dpS desS dpE desE) ∧
    (∀ p, p <+: applyOrderTrace dpS desS dpE desE → coherent (runEvents ⟨dpS, dpE⟩ p)) ∧
    (∃ ex, ex <+: applyOrderTrace dpS desS dpE desE ∧
      (runWrites oracle ⟨dpS, dpE⟩ (applyOrderTrace dpS desS dpE desE)).1
        = runEvents ⟨dpS, dpE⟩ ex ∧
      (runWrites oracle ⟨dpS, dpE⟩ (applyOrderTrace dpS desS dpE desE)).2.1 = ex ∧
      ((runWrites oracle ⟨dpS, dpE⟩ (applyOrderTrace dpS desS dpE desE)).2.2 = true
        ↔ ex = applyOrderTrace dpS desS dpE desE)) := by
  refine ⟨?_, ?_, runWrites_spec oracle _ _⟩
  · unfold applyOrderTrace
    have h0 : ∀ e ∈ svcsDeletionEvents dpS desS, evPhase e = 0 := by
      intro e he
      obtain ⟨k, hk⟩ := svcsDeletionEvents_shape dpS desS e he
      rw [hk]
      rfl
    have h1 : ∀ e ∈ epsUpdateEvents dpE desE, evPhase e = 1 := by
      intro e he
      obtain ⟨k, v, hk⟩ := epsUpdateEvents_shape dpE desE e he
      rw [hk]
      rfl
    have h2 : ∀ e ∈ svcsUpdateEvents dpS desS, evPhase e = 2 := by
      intro e he
      obtain ⟨k, v, hk, _⟩ := svcsUpdateEvents_shape dpS desS hwfS e he
      rw [hk]
      rfl
    have h3 : ∀ e ∈ epsDeletionEvents dpE desE, evPhase e = 3 := by
      intro e he
      obtain ⟨k, hk, _⟩ := epsDeletionEvents_shape dpE desE e he
      rw [hk]
      rfl
    refine List.pairwise_append.mpr ⟨pairwise_phase_const _ 0 h0, ?_, ?_⟩
    · refine List.pairwise_append.mpr ⟨pairwise_phase_const _ 1 h1, ?_, ?_⟩
      · refine List.pairwise_append.mpr
          ⟨pairwise_phase_const _ 2 h2, pairwise_phase_const _ 3 h3, ?_⟩
        intro a ha b hb
        rw [h2 a ha, h3 b hb]
        omega
      · intro a ha b hb
        rcases List.mem_append.mp hb with hb2 | hb2
        · rw [h1 a ha, h2 b hb2]
          omega
        · rw [h1 a ha, h3 b hb2]
          omega
    · intro a ha b hb
      rw [h0 a ha]
      exact Nat.zero_le _
  · intro p hp
    unfold applyOrderTrace at hp
    rcases prefix_append_cases _ _ p hp with h1 | ⟨q, hq, rfl⟩
    · exact coherent_runEvents_fdels p ⟨dpS, dpE⟩
        (fun e he => svcsDeletionEvents_shape dpS desS e (h1.subset he)) hco
    · rw [runEvents_append]
      have hco1 : coherent (runEvents ⟨dpS, dpE⟩ (svcsDeletionEvents dpS desS)) :=
        coherent_runEvents_fdels _ _ (svcsDeletionEvents_shape dpS desS) hco
      have heps1 : (runEvents ⟨dpS, dpE⟩ (svcsDeletionEvents dpS desS)).eps = dpE :=
        eps_runEvents_fdels _ _ (svcsDeletionEvents_shape dpS desS)
      rcases prefix_append_cases _ _ q hq with h2 | ⟨r, hr, rfl⟩
      · exact (bupd_batch q _
          (fun e he => epsUpdateEvents_shape dpE desE e (h2.subset he))).1 hco1
      · rw [runEvents_append]
        have hco2 : coherent (runEvents (runEvents ⟨dpS, dpE⟩ (svcsDeletionEvents dpS desS))
            (epsUpdateEvents dpE desE)) :=
          (bupd_batch _ _ (epsUpdateEvents_shape dpE desE)).1 hco1
        have hsvcs2 : (runEvents (runEvents ⟨dpS, dpE⟩ (svcsDeletionEvents dpS desS))
              (epsUpdateEvents dpE desE)).svcs
            = (runEvents ⟨dpS, dpE⟩ (svcsDeletionEvents dpS desS)).svcs :=
          (bupd_batch _ _ (epsUpdateEvents_shape dpE desE)).2.1
        have hP2c : ∀ bk, kvContains desE bk = true →
            kvContains (runEvents (runEvents ⟨dpS, dpE⟩ (svcsDeletionEvents dpS desS))
              (epsUpdateEvents dpE desE)).eps bk = true :=
          epsContains_after_P2 dpE desE _ heps1
        rcases prefix_append_cases _ _ r hr with h3 | ⟨u, hu, rfl⟩
        · exact (fupd_batch desS desE hdes r _
            (fun e he => svcsUpdateEvents_shape dpS desS hwfS e (h3.subset he))
            ⟨hco2, hP2c⟩).1
        · rw [runEvents_append]
          have hsvcs3 : ∀ k, kvLookup (runEvents
              (runEvents (runEvents ⟨dpS, dpE⟩ (svcsDeletionEvents dpS desS))
                (epsUpdateEvents dpE desE)) (svcsUpdateEvents dpS desS)).svcs k
              = kvLookup desS k :=
            svcs_after_P3 dpS desS hwfS _
              (fun k => by rw [hsvcs2]; exact svcs_after_P1 dpS desS dpE k)
          have heps3 : (runEvents
              (runEvents (runEvents ⟨dpS, dpE⟩ (svcsDeletionEvents dpS desS))
                (epsUpdateEvents dpE desE)) (svcsUpdateEvents dpS desS)).eps
              = (runEvents (runEvents ⟨dpS, dpE⟩ (svcsDeletionEvents dpS desS))
                (epsUpdateEvents dpE desE)).eps := by
            apply eps_runEvents_fupds
            intro e he
            obtain ⟨k, v, hk, _⟩ := svcsUpdateEvents_shape dpS desS hwfS e he
            exact ⟨k, v, hk⟩
          have hinv : postP3Inv desS desE (runEvents
              (runEvents (runEvents ⟨dpS, dpE⟩ (svcsDeletionEvents dpS desS))
                (epsUpdateEvents dpE desE)) (svcsUpdateEvents dpS desS)) := by
            refine ⟨fun k v h => by rw [← hsvcs3 k]; exact h, fun bk hb => ?_⟩
            rw [show (runEvents
              (runEvents (runEvents ⟨dpS, dpE⟩ (svcsDeletionEvents dpS desS))
                (epsUpdateEvents dpE desE)) (svcsUpdateEvents dpS desS)).eps
              = _ from heps3]
            exact hP2c bk hb
          exact coherent_of_postP3Inv hdes
            (bdel_batch desS desE u _
              (fun e he => epsDeletionEvents_shape dpE desE e (hu.subset he)) hinv)

/-- The frontend key of the C1 witness. -/
def c1kA : FrontendKey := ⟨1, 80, 6, zeroCIDR4⟩

/-- The frontend value of the C1 witness: id 5, one backend slot. -/
def c1fv : FrontendValue := ⟨5, 1, 0, 0, 0⟩

/-- Desired frontends of the C1 witness. -/
def c1desS : KVMap FrontendKey FrontendValue := [(c1kA, c1fv)]

/-- Desired backends of the C1 witness: slot (5, 0). -/
def c1desE : KVMap BackendKey BackendValue := [(⟨5, 0⟩, ⟨10, 8080⟩)]

theorem c1_wit_hco : coherent ⟨[], []⟩ := by
  intro k v h
  exact Option.noConfusion h

theorem c1_wit_hdes : desiredCoherent c1desS c1desE := by
  intro k v h bk hbk
  rw [show kvLookup c1desS k = if c1kA = k then some c1fv else none from rfl] at h
  by_cases hk : c1kA = k
  · rw [if_pos hk] at h
    have hv := Option.some.inj h
    subst hv
    have hbk2 : bk = ⟨5, 0⟩ := by
      have hr : natRefs c1fv = [⟨5, 0⟩] := rfl
      rw [hr] at hbk
      simpa using hbk
    rw [hbk2]
    decide
  · rw [if_neg hk] at h
    exact Option.noConfusion h

theorem c1_apply_four_phase_order_witness :
    List.Pairwise (fun a b => evPhase a ≤ evPhase b) (applyOrderTrace [] c1desS [] c1desE) ∧
    (∀ p, p <+: applyOrderTrace [] c1desS [] c1desE → coherent (runEvents ⟨[], []⟩ p)) ∧
    (∃ ex, ex <+: applyOrderTrace [] c1desS [] c1desE ∧
      (runWrites (fun _ => true) ⟨[], []⟩ (applyOrderTrace [] c1desS [] c1desE)).1
        = runEvents ⟨[], []⟩ ex ∧
      (runWrites (fun _ => true) ⟨[], []⟩ (applyOrderTrace [] c1desS [] c1desE)).2.1 = ex ∧
      ((runWrites (fun _ => true) ⟨[], []⟩ (applyOrderTrace [] c1desS [] c1desE)).2.2 = true
        ↔ ex = applyOrderTrace [] c1desS [] c1desE)) :=
  c1_apply_four_phase_order [] c1desS [] c1desE (fun _ => true)
    (by show (kvKeys c1desS).Nodup; decide) c1_wit_hco c1_wit_hdes

end Proxy
